import Mathlib

/-!
# EasyRPG Player: the MIDI sequencing engine `AudioDecoderMidi`

A shallow embedding of `src/audio_decoder_midi.cpp` and theorems about it.

* `float` and `double` are IEEE-754 binary32 and binary64 with round-to-nearest-even, evaluated
  without extended intermediate precision.  A finite value is stored as a sign and a natural
  number of units of `2 ^ (-1074)` (the smallest positive binary64 number): every finite
  binary32 and binary64 number is such a multiple, so a `float` is a `double` without any
  conversion, and every arithmetic operation rounds its exact result to the format named.
* `int` values are integers.  The conversion of a `float` to `int` and the additions that make
  a tick count give the 32-bit result of the compiled program (`Flt.toInt`, `wrap_int`); no
  other `int` operation of the engine leaves the range.  `uint8_t` and `uint32_t` values are
  natural numbers, masked as the source masks them.
* The sequence walker (`midisequencer::sequencer`) and the synthesis backend (`MidiDecoder`)
  are external collaborators: they are records of functions over an arbitrary state type.
* `assert(!tempo.empty())` is modelled by `Option`: a function returns `none` when it hits a
  failing assertion.
-/

/-! ## IEEE-754 arithmetic -/

/-- Binary-search step of `ilog2`: with `k` steps left the argument is below `2 ^ 2 ^ k`. -/
def ilog2Aux : Nat → Nat → Nat → Nat
  | 0, _, acc => acc
  | k + 1, n, acc =>
    if 2 ^ 2 ^ k ≤ n then ilog2Aux k (n / 2 ^ 2 ^ k) (acc + 2 ^ k) else ilog2Aux k n acc

/-- Floor of the binary logarithm of `n` for `0 < n < 2 ^ 16384`, and `0` for `n = 0`. -/
def ilog2 (n : Nat) : Nat := ilog2Aux 14 n 0

/-- A floating-point datum: not-a-number, a signed infinity, or the finite value
`(-1) ^ neg * n * 2 ^ (-1074)`. -/
inductive Flt where
  | nan : Flt
  | inf (neg : Bool) : Flt
  | fin (neg : Bool) (n : Nat) : Flt
deriving DecidableEq

/-- A binary format: significand width, and the binary logarithms (in units of `2 ^ (-1074)`)
of its smallest positive number and of its overflow threshold. -/
structure Fmt where
  prec : Nat
  emin : Nat
  emax : Nat

/-- The format of `float`: 24 significant bits, least number `2 ^ (-149)`, overflow at `2 ^ 128`. -/
def binary32 : Fmt := ⟨24, 925, 1202⟩

/-- The format of `double`: 53 significant bits, least number `2 ^ (-1074)`, overflow at
`2 ^ 1024`. -/
def binary64 : Fmt := ⟨53, 0, 2098⟩

/-- The least value of `int`. -/
def INT_MIN : Int := -2147483648

/-- The value an `int` takes for the exact result `x` of an addition: the two's complement
reduction to 32 bits.  C++ leaves the overflow of `int` undefined; the compiled addition wraps. -/
def wrap_int (x : Int) : Int := (x + 2147483648) % 4294967296 - 2147483648

namespace Flt

/-- The number of units in `1.0`. -/
def one : Nat := 2 ^ 1074

/-- The dyadic number `m * 2 ^ e` (for `e ≥ -1074`), used to write values down. -/
def dy (m : Nat) (e : Int) : Flt := fin false (m * 2 ^ (1074 + e).toNat)

/-- Round the non-negative rational `N / D` units (with `0 < D`) to format `f`, to nearest with
ties to even, and attach the sign `neg`; overflow gives an infinity. -/
def round (f : Fmt) (neg : Bool) (N D : Nat) : Flt :=
  if N = 0 then fin neg 0 else
  let s := max (ilog2 (N / D) + 1 - f.prec) f.emin
  let D2 := D * 2 ^ s
  let q := N / D2
  let r := N % D2
  let q2 := if D2 < 2 * r ∨ (2 * r = D2 ∧ q % 2 = 1) then q + 1 else q
  let n := q2 * 2 ^ s
  if 2 ^ f.emax ≤ n then inf neg else fin neg n

/-- The signed number of units of a finite value. -/
def sval : Bool → Nat → Int
  | false, n => (n : Int)
  | true, n => - (n : Int)

/-- Conversion of an integer to format `f`. -/
def ofInt (f : Fmt) (i : Int) : Flt := round f (decide (i < 0)) (i.natAbs * one) 1

/-- The literal written as the decimal fraction `num / den`, in format `f`. -/
def lit (f : Fmt) (num den : Nat) : Flt := round f false (num * one) den

/-- Addition in format `f`. -/
def add (f : Fmt) : Flt → Flt → Flt
  | nan, _ => nan
  | _, nan => nan
  | inf a, inf b => if a = b then inf a else nan
  | inf a, fin _ _ => inf a
  | fin _ _, inf b => inf b
  | fin a n, fin b m =>
    let z := sval a n + sval b m
    if z = 0 then fin (a && b) 0 else round f (decide (z < 0)) z.natAbs 1

/-- Negation. -/
def neg : Flt → Flt
  | nan => nan
  | inf a => inf (!a)
  | fin a n => fin (!a) n

/-- Subtraction in format `f`. -/
def sub (f : Fmt) (x y : Flt) : Flt := add f x (neg y)

/-- Multiplication in format `f`. -/
def mul (f : Fmt) : Flt → Flt → Flt
  | nan, _ => nan
  | _, nan => nan
  | inf a, inf b => inf (xor a b)
  | inf a, fin b m => if m = 0 then nan else inf (xor a b)
  | fin a n, inf b => if n = 0 then nan else inf (xor a b)
  | fin a n, fin b m => round f (xor a b) (n * m) one

/-- Division in format `f`; a finite non-zero number divided by zero is an infinity. -/
def div (f : Fmt) : Flt → Flt → Flt
  | nan, _ => nan
  | _, nan => nan
  | inf _, inf _ => nan
  | inf a, fin b _ => inf (xor a b)
  | fin a _, inf b => fin (xor a b) 0
  | fin a n, fin b m =>
    if m = 0 then (if n = 0 then nan else inf (xor a b))
    else round f (xor a b) (n * one) m

/-- Conversion to format `f` (used for `double` to `float`). -/
def cvt (f : Fmt) : Flt → Flt
  | fin a n => round f a n 1
  | x => x

/-- The comparison `x <= y`; false when either side is not a number. -/
def le : Flt → Flt → Bool
  | fin a n, fin b m => decide (sval a n ≤ sval b m)
  | inf true, inf _ => true
  | inf true, fin _ _ => true
  | inf false, inf false => true
  | fin _ _, inf false => true
  | _, _ => false

/-- The comparison `x < y`; false when either side is not a number. -/
def lt : Flt → Flt → Bool
  | fin a n, fin b m => decide (sval a n < sval b m)
  | inf true, inf false => true
  | inf true, fin _ _ => true
  | fin _ _, inf false => true
  | _, _ => false

/-- The conversion `static_cast<int>(x)`: truncation toward zero.  C++ leaves the conversion of
a value outside the range of `int` undefined; the compiled program takes the result of the
truncating conversion instruction, which is `INT_MIN` for every operand whose truncation is not
an `int`, the infinities and not-a-number included. -/
def toInt : Flt → Int
  | fin a n =>
    if -2147483648 ≤ sval a (n / one) ∧ sval a (n / one) ≤ 2147483647 then sval a (n / one)
    else INT_MIN
  | _ => INT_MIN

/-- The conversion `static_cast<uint8_t>(x)`: the conversion to `int` followed by the reduction
to the low byte.  C++ leaves it undefined when the truncated value is not in `0..255`. -/
def toUInt8 (x : Flt) : Nat := (toInt x % 256).toNat

end Flt

/-- The `float` literal `0.0f`. -/
def f0 : Flt := Flt.fin false 0

/-- Addition of two `float`s. -/
def fadd (x y : Flt) : Flt := Flt.add binary32 x y

/-- Subtraction of two `float`s. -/
def fsub (x y : Flt) : Flt := Flt.sub binary32 x y

/-- Multiplication of two `float`s. -/
def fmul (x y : Flt) : Flt := Flt.mul binary32 x y

/-- Division of two `float`s. -/
def fdiv (x y : Flt) : Flt := Flt.div binary32 x y

/-- Conversion of an integer to `float`. -/
def fofInt (i : Int) : Flt := Flt.ofInt binary32 i

/-! ## MIDI channel messages -/

/-- Samples per slice of the buffer fill loop (1 ms of message resolution at 44100 Hz). -/
def samples_per_play : Int := 512

/-- Bytes per stereo 16-bit sample frame: `sizeof(int16_t) * 2`. -/
def bytes_per_sample : Int := 4

def midi_event_control_change : Nat := 0b1011

def midi_control_volume : Nat := 7

def midi_control_all_sound_off : Nat := 120

def midi_control_all_note_off : Nat := 123

def midi_control_reset_all_controller : Nat := 121

/-- Packs a channel message into a 24-bit word. -/
def midimsg_make (event_type channel value1 value2 : Nat) : Nat :=
  let msg := 0
  let msg := msg ||| ((((event_type <<< 4) &&& 0xF0) ||| (channel &&& 0x0F)) &&& 0x0000FF)
  let msg := msg ||| ((value1 <<< 8) &&& 0x00FF00)
  let msg := msg ||| ((value2 <<< 16) &&& 0xFF0000)
  msg

def midimsg_all_note_off (channel : Nat) : Nat :=
  midimsg_make midi_event_control_change channel midi_control_all_note_off 0

def midimsg_all_sound_off (channel : Nat) : Nat :=
  midimsg_make midi_event_control_change channel midi_control_all_sound_off 0

def midimsg_volume (channel volume : Nat) : Nat :=
  midimsg_make midi_event_control_change channel midi_control_volume volume

def midimsg_reset_all_controller (channel : Nat) : Nat :=
  midimsg_make midi_event_control_change channel midi_control_reset_all_controller 0

def midimsg_get_event_type (msg : Nat) : Nat := (msg &&& 0x0000F0) >>> 4

def midimsg_get_channel (msg : Nat) : Nat := msg &&& 0x00000F

def midimsg_get_value1 (msg : Nat) : Nat := (msg &&& 0x00FF00) >>> 8

def midimsg_get_value2 (msg : Nat) : Nat := (msg &&& 0xFF0000) >>> 16

/-! ## The collaborators -/

/-- An event the sequence walker delivers to the engine during `play`: a call of
`midi_message`, `sysex_message` or `meta_event`. -/
inductive SeqEvent where
  | midi (track : Int) (message : Nat) : SeqEvent
  | sysex (track : Int) (data : List Nat) : SeqEvent
  | metaEv (event : Int) (data : List Nat) : SeqEvent

/-- The interface of `midisequencer::sequencer` over its own state `σ`.  `load` reads the
file bytes, `play` returns the events it delivers, in order. -/
structure Sequencer (σ : Type) where
  clear : σ → σ
  load : σ → List Nat → σ × Bool
  rewind : σ → σ
  rewind_to_loop : σ → σ × Flt
  get_start_skipping_silence : σ → σ × Flt
  get_total_time : σ → Flt
  get_division : σ → Int
  is_at_end : σ → Bool
  play : σ → Flt → σ × List SeqEvent

/-- The interface of the synthesis backend `MidiDecoder` over its own state `β`.  `FillBuffer`
receives the caller's buffer, the offset `buffer + written` it is to write at and the byte
count asked for, and returns the buffer and the byte count it wrote. -/
structure MidiDecoder (β : Type) where
  SendMidiMessage : β → Nat → β
  SendSysExMessage : β → List Nat → β
  SendMidiReset : β → β
  FillBuffer : β → List Nat → Int → Int → β × List Nat × Int

/-- One call received by the backend. -/
inductive BackendCall where
  | message (msg : Nat) : BackendCall
  | sysex (data : List Nat) : BackendCall
  | reset : BackendCall
  | fill (offset len res : Int) : BackendCall
deriving DecidableEq

/-- The backend `B` with a journal of the calls it received, oldest first. -/
def MidiDecoder.recording {β : Type} (B : MidiDecoder β) : MidiDecoder (β × List BackendCall) where
  SendMidiMessage := fun b m => (B.SendMidiMessage b.1 m, b.2 ++ [BackendCall.message m])
  SendSysExMessage := fun b d => (B.SendSysExMessage b.1 d, b.2 ++ [BackendCall.sysex d])
  SendMidiReset := fun b => (B.SendMidiReset b.1, b.2 ++ [BackendCall.reset])
  FillBuffer := fun b buf off len =>
    let r := B.FillBuffer b.1 buf off len
    ((r.1, b.2 ++ [BackendCall.fill off len r.2.2]), r.2.1, r.2.2)

/-! ## The engine -/

/-- The origin of a seek, `std::ios_base::seekdir`. -/
inductive seekdir where
  | beg : seekdir
  | cur : seekdir
  | end_ : seekdir
deriving DecidableEq

/-- One tempo change: the tempo in microseconds per quarter note, the tick rate derived from
it, the virtual time it was created at and the tick count accumulated up to then. -/
structure MidiTempoData where
  tempo : Nat
  ticks_per_sec : Flt
  mtime : Flt
  ticks : Int
deriving DecidableEq

/-- The constructor `MidiTempoData(midi, cur_tempo, prev)`; `division` is
`midi->seq->get_division()` and `mtime` is `midi->mtime`.  Without a previous record `ticks`
keeps its initial value; the member initialiser is in the class declaration, which is not in the
source tree, and the spec gives 0 for the first record. -/
def MidiTempoData.new (division : Int) (mtime : Flt) (cur_tempo : Nat)
    (prev : Option MidiTempoData) : MidiTempoData :=
  let ticks_per_sec := fmul (fdiv (fofInt division) (fofInt cur_tempo)) (fofInt 1000000)
  match prev with
  | none => ⟨cur_tempo, ticks_per_sec, mtime, 0⟩
  | some p =>
    let delta := fsub mtime p.mtime
    let ticks_since_last := Flt.toInt (fmul ticks_per_sec delta)
    ⟨cur_tempo, ticks_per_sec, mtime, wrap_int (p.ticks + ticks_since_last)⟩

def MidiTempoData.GetTicks (t : MidiTempoData) (mtime_cur : Flt) : Int :=
  let delta := fsub mtime_cur t.mtime
  wrap_int (t.ticks + Flt.toInt (fmul t.ticks_per_sec delta))

/-- The state of an `AudioDecoderMidi` with walker state `σ` and backend state `β`.
`midi_default_tempo` is the class constant of that name; it is declared in the header and is
carried along unchanged.  The read cursor `file_buffer_pos` belongs to the read callback of
`load` and is not modelled. -/
structure AudioDecoderMidi (σ β : Type) where
  seq : σ
  mididec : β
  midi_default_tempo : Nat
  error_message : String
  file_buffer : List Nat
  mtime : Flt
  pitch : Int
  frequency : Int
  paused : Bool
  looping : Bool
  loops_to_end : Bool
  volume : Flt
  fade_end : Flt
  fade_steps : Int
  delta_step : Flt
  last_fade_mtime : Flt
  channel_volumes : Fin 16 → Nat
  tempo : List MidiTempoData

/-- Modelled from the spec: `Utils::Clamp<float>` (declared in `utils.h`, which is not in the
source tree) clamps its first argument to the interval given by the other two. -/
def Clamp (value minv maxv : Flt) : Flt :=
  if Flt.lt value minv then minv else if Flt.lt maxv value then maxv else value

section Engine

variable {σ β : Type} (W : Sequencer σ) (B : MidiDecoder β)

/-- The loop `for (i = 0; i < 16; i++) SendMidiMessage(midimsg_volume(i, vol i))`. -/
def send_volumes (vol : Fin 16 → Nat) (d : β) : β :=
  (List.finRange 16).foldl (fun d i => B.SendMidiMessage d (midimsg_volume i.val (vol i))) d

/-- The operand `static_cast<uint8_t>(channel_volumes[i] * volume)`. -/
def scaled_volume (channel_volume : Nat) (volume : Flt) : Nat :=
  Flt.toUInt8 (fmul (fofInt channel_volume) volume)

def SendMessageToAllChannels (midi_msg : Nat) (d : β) : β :=
  ((List.range 16).foldl (fun (acc : Nat × β) channel =>
    let event_type := midimsg_get_event_type acc.1
    let msg := acc.1 ||| ((((event_type <<< 4) &&& 0xF0) ||| (channel &&& 0x0F)) &&& 0x0000FF)
    (msg, B.SendMidiMessage acc.2 msg)) (midi_msg, d)).2

def reset (s : AudioDecoderMidi σ β) : AudioDecoderMidi σ β :=
  let d := SendMessageToAllChannels B (midimsg_all_sound_off 0) s.mididec
  let d := SendMessageToAllChannels B (midimsg_reset_all_controller 0) d
  { s with mididec := B.SendMidiReset d }

def Reset (s : AudioDecoderMidi σ β) : AudioDecoderMidi σ β := reset B s

def Open (s : AudioDecoderMidi σ β) (stream : List Nat) : AudioDecoderMidi σ β × Bool :=
  let s := Reset B s
  let s := { s with seq := W.clear s.seq }
  let s := { s with file_buffer := stream }
  let r := W.load s.seq s.file_buffer
  let s := { s with seq := r.1 }
  if !r.2 then ({ s with error_message := "Midi: Error reading file" }, false) else
  let s := { s with seq := W.rewind s.seq }
  let r := W.get_start_skipping_silence s.seq
  let s := { s with seq := r.1, mtime := r.2 }
  let s := { s with tempo := s.tempo ++
    [MidiTempoData.new (W.get_division s.seq) s.mtime s.midi_default_tempo none] }
  (s, true)

def Pause (s : AudioDecoderMidi σ β) : AudioDecoderMidi σ β :=
  let s := { s with paused := true }
  { s with mididec := send_volumes B (fun _ => 0) s.mididec }

def Resume (s : AudioDecoderMidi σ β) : AudioDecoderMidi σ β :=
  let s := { s with paused := false }
  { s with mididec :=
      send_volumes B (fun i => scaled_volume (s.channel_volumes i) s.volume) s.mididec }

def GetVolume (s : AudioDecoderMidi σ β) : Int :=
  if 0 < s.fade_steps then Flt.toInt (fmul s.fade_end (fofInt 100))
  else Flt.toInt (fmul s.volume (fofInt 100))

def SetVolume (s : AudioDecoderMidi σ β) (new_volume : Int) : AudioDecoderMidi σ β :=
  let s := { s with fade_steps := 0 }
  let s := { s with volume := fdiv (fofInt new_volume) (Flt.lit binary32 100 1) }
  { s with mididec :=
      send_volumes B (fun i => scaled_volume (s.channel_volumes i) s.volume) s.mididec }

def SetFade (s : AudioDecoderMidi σ β) (begin_ end_ duration : Int) : AudioDecoderMidi σ β :=
  let s := { s with fade_steps := 0, last_fade_mtime := f0 }
  if duration ≤ 0 then SetVolume B s end_ else
  if begin_ = end_ then SetVolume B s end_ else
  let s := { s with volume := fdiv (fofInt begin_) (Flt.lit binary32 100 1) }
  let s := { s with fade_end := fdiv (fofInt end_) (Flt.lit binary32 100 1) }
  let s := { s with fade_steps := Int.tdiv duration 100 }
  { s with delta_step := fdiv (fsub s.fade_end s.volume) (fofInt s.fade_steps) }

/-- The idiom `find_if(tempo.rbegin(), tempo.rend(), t.mtime <= mtime)`, `rit.base()`,
`tempo.erase(it, tempo.end())`: everything behind the last record with `t.mtime <= mtime` is
erased, and every record when there is none. -/
def erase_after_loop_point (tempo : List MidiTempoData) (mtime : Flt) : List MidiTempoData :=
  tempo.rdropWhile (fun t => !(Flt.le t.mtime mtime))

def reset_tempos_after_loop (s : AudioDecoderMidi σ β) : AudioDecoderMidi σ β :=
  if Flt.lt f0 s.mtime then
    { s with tempo := erase_after_loop_point s.tempo s.mtime }
  else
    let s := { s with tempo := [] }
    { s with tempo := s.tempo ++
        [MidiTempoData.new (W.get_division s.seq) s.mtime s.midi_default_tempo none] }

def Seek (s : AudioDecoderMidi σ β) (offset : Int) (origin : seekdir) :
    Option (AudioDecoderMidi σ β × Bool) :=
  if s.tempo.isEmpty then none else
  if offset = 0 ∧ origin = seekdir.beg then
    let r := W.rewind_to_loop s.seq
    let s := { s with seq := r.1, mtime := r.2 }
    let s := { s with loops_to_end := Flt.le (W.get_total_time s.seq) s.mtime }
    if Flt.lt f0 s.mtime then
      some ({ s with tempo := erase_after_loop_point s.tempo s.mtime }, true)
    else
      let s := { s with tempo := [] }
      some ({ s with tempo := s.tempo ++
        [MidiTempoData.new (W.get_division s.seq) s.mtime s.midi_default_tempo none] }, true)
  else some (s, false)

def IsFinished (s : AudioDecoderMidi σ β) : Bool :=
  if s.loops_to_end then false else W.is_at_end s.seq

def midi_message (s : AudioDecoderMidi σ β) (_track : Int) (message : Nat) :
    AudioDecoderMidi σ β :=
  let event_type := midimsg_get_event_type message
  let channel := midimsg_get_channel message
  let value1 := midimsg_get_value1 message
  let value2 := midimsg_get_value2 message
  if event_type = midi_event_control_change ∧ value1 = midi_control_volume then
    let s := { s with
      channel_volumes := Function.update s.channel_volumes (Fin.ofNat channel) value2 }
    let message := midimsg_volume channel (Flt.toUInt8 (fmul (fofInt value2) s.volume))
    { s with mididec := B.SendMidiMessage s.mididec message }
  else
    { s with mididec := B.SendMidiMessage s.mididec message }

def sysex_message (s : AudioDecoderMidi σ β) (_track : Int) (data : List Nat) :
    AudioDecoderMidi σ β :=
  { s with mididec := B.SendSysExMessage s.mididec data }

/-- The callback `meta_event(event, data, size)`; the pointer and `size` are the byte list
`data` and its length. -/
def meta_event (s : AudioDecoderMidi σ β) (event : Int) (data : List Nat) :
    Option (AudioDecoderMidi σ β) :=
  match s.tempo.getLast? with
  | none => none
  | some back =>
    if data.length = 3 ∧ event = 0x51 then
      let new_tempo := (((data.getD 0 0) % 256) <<< 16) ||| (((data.getD 1 0) % 256) <<< 8)
        ||| ((data.getD 2 0) % 256)
      some { s with tempo := s.tempo ++
        [MidiTempoData.new (W.get_division s.seq) s.mtime new_tempo (some back)] }
    else some s

/-- One callback made by the walker. -/
def dispatch (s : AudioDecoderMidi σ β) : SeqEvent → Option (AudioDecoderMidi σ β)
  | SeqEvent.midi track message => some (midi_message B s track message)
  | SeqEvent.sysex track data => some (sysex_message B s track data)
  | SeqEvent.metaEv event data => meta_event W s event data

/-- The call `seq->play(mtime, this)`: the walker's callbacks run on the engine, in order,
before `play` returns. -/
def seq_play (s : AudioDecoderMidi σ β) : Option (AudioDecoderMidi σ β) :=
  let r := W.play s.seq s.mtime
  (r.2.foldlM (dispatch W B) s).map (fun s1 => { s1 with seq := r.1 })

def Update (s : AudioDecoderMidi σ β) (delta : Int) : Option (AudioDecoderMidi σ β) :=
  if s.paused then some s else
  let s :=
    if 0 ≤ s.fade_steps ∧ Flt.lt (Flt.lit binary32 1 10) (fsub s.mtime s.last_fade_mtime) then
      let s := { s with volume := Clamp (fadd s.volume s.delta_step) f0 (fofInt 1) }
      let s := { s with
        mididec := send_volumes B (fun i => scaled_volume (s.channel_volumes i) s.volume) s.mididec }
      let s := { s with last_fade_mtime := s.mtime }
      { s with fade_steps := s.fade_steps - 1 }
    else s
  (seq_play W B s).map (fun s =>
    let step := Flt.div binary64 (Flt.div binary64 (Flt.ofInt binary64 (delta * s.pitch))
      (Flt.lit binary64 100 1)) (Flt.lit binary64 1000 1)
    let s := { s with mtime := Flt.cvt binary32 (Flt.add binary64 s.mtime step) }
    if IsFinished W s && s.looping then
      let r := W.rewind_to_loop s.seq
      let s := { s with seq := r.1, mtime := r.2 }
      reset_tempos_after_loop W s
    else s)

def SetPitch (s : AudioDecoderMidi σ β) (pitch : Int) : AudioDecoderMidi σ β × Bool :=
  ({ s with pitch := pitch }, true)

def GetTicks (s : AudioDecoderMidi σ β) : Option Int :=
  s.tempo.getLast?.map (fun back => back.GetTicks s.mtime)

/-- The slice loop of `FillBuffer`.  Every iteration that does not leave the loop lowers
`samples_max` by `samples_per_play`; `fuel` bounds the number of iterations, and the result is
`none` when the fuel runs out before the loop is left or when a callback hits a failing
assertion. -/
def FillBuffer_loop : Nat → AudioDecoderMidi σ β → List Nat → Int → Int →
    Option (AudioDecoderMidi σ β × List Nat × Int)
  | 0, _, _, _, _ => none
  | fuel + 1, s, buffer, samples_max, written =>
    if 0 < samples_max then
      let samples := min samples_per_play samples_max
      let delta := fdiv (fofInt samples)
        (fdiv (fofInt (s.frequency * s.pitch)) (Flt.lit binary32 100 1))
      match seq_play W B s with
      | none => none
      | some s =>
        let s := { s with mtime := fadd s.mtime delta }
        let len := samples * bytes_per_sample
        let r := B.FillBuffer s.mididec buffer written len
        let s := { s with mididec := r.1 }
        let res := r.2.2
        let written := written + res
        if samples < samples_per_play ∨ res < len then some (s, r.2.1, written)
        else FillBuffer_loop fuel s r.2.1 (samples_max - samples) written
    else some (s, buffer, written)

/-- The call `memset(buffer, 0, length)`. -/
def memset_zero (buffer : List Nat) (length : Int) : List Nat :=
  List.replicate length.toNat 0 ++ buffer.drop length.toNat

def FillBuffer (s : AudioDecoderMidi σ β) (buffer : List Nat) (length : Int) :
    Option (AudioDecoderMidi σ β × List Nat × Int) :=
  if s.loops_to_end then some (s, memset_zero buffer length, length) else
  let samples_max := Int.tdiv length bytes_per_sample
  FillBuffer_loop W B (samples_max.toNat / 512 + 1) s buffer samples_max 0

end Engine

/-! ## Concrete collaborators and engines -/

/-- A walker for a file with the given division, start time, loop point time and total time,
which delivers no event and never reports the end of the stream. -/
def quietWalker (division : Int) (start loop total : Flt) : Sequencer Unit where
  clear := id
  load := fun s _ => (s, true)
  rewind := id
  rewind_to_loop := fun s => (s, loop)
  get_start_skipping_silence := fun s => (s, start)
  get_total_time := fun _ => total
  get_division := fun _ => division
  is_at_end := fun _ => false
  play := fun s _ => (s, [])

/-- A backend that always writes every byte it is asked for. -/
def fullBackend : MidiDecoder Unit where
  SendMidiMessage := fun b _ => b
  SendSysExMessage := fun b _ => b
  SendMidiReset := fun b => b
  FillBuffer := fun b buf _ len => (b, buf, len)

/-- The state type of an engine on a `quietWalker` and the journalled `fullBackend`. -/
abbrev Engine : Type := AudioDecoderMidi Unit (Unit × List BackendCall)

/-- Modelled from the spec: a newly constructed engine.  The constructor in the source fills the
shadow table with 127; the member initialisers are in the class declaration, which is not in the
source tree, and are taken to be: virtual time 0, pitch 100, 44100 Hz, not paused, not looping,
volume 0, no fade, an empty tempo list, and a default tempo of 500000 microseconds per quarter
note. -/
def AudioDecoderMidi.create {σ β : Type} (seq : σ) (mididec : β) : AudioDecoderMidi σ β :=
  { seq := seq, mididec := mididec, midi_default_tempo := 500000, error_message := "",
    file_buffer := [], mtime := f0, pitch := 100, frequency := 44100, paused := false,
    looping := false, loops_to_end := false, volume := f0, fade_end := f0, fade_steps := 0,
    delta_step := f0, last_fade_mtime := f0, channel_volumes := fun _ => 127, tempo := [] }

/-- The journal of a recording backend. -/
def journal {σ β : Type} (s : AudioDecoderMidi σ (β × List BackendCall)) : List BackendCall :=
  s.mididec.2

/-- The engine with an emptied journal. -/
def clearJournal {σ β : Type} (s : AudioDecoderMidi σ (β × List BackendCall)) :
    AudioDecoderMidi σ (β × List BackendCall) :=
  { s with mididec := (s.mididec.1, []) }

/-- The walker of a file with division 480 that starts at time 0, has its loop point at time 0
and lasts 10 seconds. -/
def walker480 : Sequencer Unit := quietWalker 480 f0 f0 (fofInt 10)

/-- A freshly loaded engine: construction followed by a successful `Open` on `walker480`. -/
def loadedEngine : Engine :=
  clearJournal (Open walker480 fullBackend.recording (AudioDecoderMidi.create () ((), [])) []).1

/-- The journalled backend of the concrete engines. -/
abbrev recorder : MidiDecoder (Unit × List BackendCall) := fullBackend.recording

/-- The walker of a file with division 480 whose first note is at 2 seconds and whose loop
point is at 1 second. -/
def walkerLateStart : Sequencer Unit := quietWalker 480 (fofInt 2) (fofInt 1) (fofInt 10)

/-- The walker of a file with division 480 whose loop point is at 1.5 seconds. -/
def walkerLoopMid : Sequencer Unit := quietWalker 480 f0 (Flt.dy 3 (-1)) (fofInt 10)

/-- The default tempo record of `loadedEngine`, created at time 0. -/
def tempoRec0 : MidiTempoData := MidiTempoData.new 480 f0 500000 none

/-- A tempo change to 1000000 at 1 second. -/
def tempoRec1 : MidiTempoData := MidiTempoData.new 480 (fofInt 1) 1000000 (some tempoRec0)

/-- A tempo change to 250000 at 2 seconds. -/
def tempoRec2 : MidiTempoData := MidiTempoData.new 480 (fofInt 2) 250000 (some tempoRec1)

/-- The loaded engine at 3 seconds, after the two tempo changes. -/
def threeTempoEngine : Engine :=
  { loadedEngine with mtime := fofInt 3, tempo := [tempoRec0, tempoRec1, tempoRec2] }

/-- The loaded engine after `SetVolume(50)`. -/
def halfVolumeEngine : Engine := clearJournal (SetVolume recorder loadedEngine 50)

/-- The loaded engine after `Update(1000)`, `SetFade(0, 100, 1000)` and `SetVolume(50)`:
a fade that was cancelled, at virtual time 1. -/
def cancelledFade : Option Engine :=
  (Update walker480 recorder loadedEngine 1000).map
    (fun s => clearJournal (SetVolume recorder (SetFade recorder s 0 100 1000) 50))

/-- The loaded engine after `SetFade(0, 100, 1000)`. -/
def fadeEngine : Engine := SetFade recorder loadedEngine 0 100 1000

/-- The engine after `n` calls of `Update(100)`. -/
def ticked : Nat → Engine → Option Engine
  | 0, s => some s
  | n + 1, s => (Update walker480 recorder s 100).bind (ticked n)


/-! ## Call sequences and further fixtures -/

/-- A call made on the engine by its owner or by the walker. -/
inductive EngineCall where
  | midiMessage (track : Int) (message : Nat) : EngineCall
  | setVolume (new_volume : Int) : EngineCall
  | setFade (begin_ end_ duration : Int) : EngineCall
  | pause : EngineCall
  | resume : EngineCall
  | update (delta : Int) : EngineCall
  | fillBuffer (buffer : List Nat) (length : Int) : EngineCall

/-- The engine after one call; `none` when the call hits a failing assertion. -/
def EngineCall.run {σ β : Type} (W : Sequencer σ) (B : MidiDecoder β) (s : AudioDecoderMidi σ β) :
    EngineCall → Option (AudioDecoderMidi σ β)
  | EngineCall.midiMessage track message => some (midi_message B s track message)
  | EngineCall.setVolume new_volume => some (SetVolume B s new_volume)
  | EngineCall.setFade begin_ end_ duration => some (SetFade B s begin_ end_ duration)
  | EngineCall.pause => some (Pause B s)
  | EngineCall.resume => some (Resume B s)
  | EngineCall.update delta => Update W B s delta
  | EngineCall.fillBuffer buffer length => (FillBuffer W B s buffer length).map (fun r => r.1)

/-- The engine after a sequence of calls. -/
def run_calls {σ β : Type} (W : Sequencer σ) (B : MidiDecoder β) (calls : List EngineCall)
    (s : AudioDecoderMidi σ β) : Option (AudioDecoderMidi σ β) :=
  calls.foldlM (EngineCall.run W B) s

/-- The call is a `FillBuffer` or an `Update`. -/
def EngineCall.isPlay : EngineCall → Bool
  | EngineCall.update _ => true
  | EngineCall.fillBuffer _ _ => true
  | _ => false

/-- A channel message whose data value, if it is a volume control-change, is at most `K`. -/
def volume_at_most (K : Nat) (message : Nat) : Prop :=
  midimsg_get_event_type message = midi_event_control_change →
    midimsg_get_value1 message = midi_control_volume → midimsg_get_value2 message ≤ K

/-- Every channel message the walker delivers satisfies `volume_at_most K`. -/
def walker_volume_at_most {σ : Type} (W : Sequencer σ) (K : Nat) : Prop :=
  ∀ (q : σ) (t : Flt) (track : Int) (message : Nat),
    SeqEvent.midi track message ∈ (W.play q t).2 → volume_at_most K message

/-- Every `midi_message` call of the sequence satisfies `volume_at_most K`. -/
def calls_volume_at_most (calls : List EngineCall) (K : Nat) : Prop :=
  ∀ (track : Int) (message : Nat),
    EngineCall.midiMessage track message ∈ calls → volume_at_most K message

/-- The backend call is a `FillBuffer` request. -/
def BackendCall.isFill : BackendCall → Bool
  | BackendCall.fill _ _ _ => true
  | _ => false

/-- The fade block of `Update`: the state after the body of its `if`. -/
def Update_fade_step {σ β : Type} (B : MidiDecoder β) (s : AudioDecoderMidi σ β) :
    AudioDecoderMidi σ β :=
  let s := { s with volume := Clamp (fadd s.volume s.delta_step) f0 (fofInt 1) }
  let s := { s with
    mididec := send_volumes B (fun i => scaled_volume (s.channel_volumes i) s.volume) s.mididec }
  let s := { s with last_fade_mtime := s.mtime }
  { s with fade_steps := s.fade_steps - 1 }

/-- The walker of a file with division 480 whose loop point, at 10 seconds, is its end. -/
def walkerLoopAtEnd : Sequencer Unit := quietWalker 480 f0 (fofInt 10) (fofInt 10)

/-- Construction followed by a successful `Open` on `walkerLoopAtEnd`. -/
def loadedLoopAtEnd : Engine :=
  clearJournal (Open walkerLoopAtEnd recorder (AudioDecoderMidi.create () ((), [])) []).1

/-- The engine `loadedLoopAtEnd` after `Seek(0, beg)`. -/
def heldEngine : Engine :=
  match Seek walkerLoopAtEnd loadedLoopAtEnd 0 seekdir.beg with
  | some r => r.1
  | none => loadedLoopAtEnd

/-- The loaded engine at virtual time 10. -/
def lateEngine : Engine := { loadedEngine with
  mtime := fofInt 10 }

/-- The engine at volume 0.5 after the walker has set the volume of channel 3 to 100. -/
def mixedVolumeEngine : Engine :=
  clearJournal (midi_message recorder halfVolumeEngine 0 0x6407B3)

/-- The part of `Update` behind the fade block: the events due are played, the virtual time
advances, and the stream is rewound to the loop point when it is finished and looping. -/
def Update_tail {σ β : Type} (W : Sequencer σ) (B : MidiDecoder β) (s : AudioDecoderMidi σ β)
    (delta : Int) : Option (AudioDecoderMidi σ β) :=
  (seq_play W B s).map (fun s =>
    let step := Flt.div binary64 (Flt.div binary64 (Flt.ofInt binary64 (delta * s.pitch))
      (Flt.lit binary64 100 1)) (Flt.lit binary64 1000 1)
    let s := { s with mtime := Flt.cvt binary32 (Flt.add binary64 s.mtime step) }
    if IsFinished W s && s.looping then
      let r := W.rewind_to_loop s.seq
      let s := { s with seq := r.1, mtime := r.2 }
      reset_tempos_after_loop W s
    else s)
/-! ## Message encoding -/

theorem shl_and_mask (x k w : Nat) : (x <<< k) &&& ((2 ^ w - 1) <<< k) = (x % 2 ^ w) * 2 ^ k := by
  rw [← Nat.shiftLeft_eq, ← Nat.and_pow_two_sub_one_eq_mod]
  apply Nat.eq_of_testBit_eq
  intro i
  simp only [Nat.testBit_and, Nat.testBit_shiftLeft]
  cases decide (i ≥ k) <;> simp

theorem low_byte_eq (event_type channel : Nat) :
    ((event_type <<< 4) &&& 0xF0) ||| (channel &&& 0x0F) = 16 * (event_type % 16) + channel % 16 := by
  have h1 : (event_type <<< 4) &&& 0xF0 = (event_type % 2 ^ 4) * 2 ^ 4 := shl_and_mask event_type 4 4
  have h2 : channel &&& 0x0F = channel % 2 ^ 4 := Nat.and_pow_two_sub_one_eq_mod channel 4
  rw [h1, h2, Nat.mul_comm, ← Nat.mul_add_lt_is_or (Nat.mod_lt _ (by decide))]
  norm_num

/-- The packed word as a sum of its three bytes. -/
theorem midimsg_make_eq (event_type channel value1 value2 : Nat) :
    midimsg_make event_type channel value1 value2
      = 16 * (event_type % 16) + channel % 16 + 256 * (value1 % 256) + 65536 * (value2 % 256) := by
  have h1 : (value1 <<< 8) &&& 0x00FF00 = (value1 % 2 ^ 8) * 2 ^ 8 := shl_and_mask value1 8 8
  have h2 : (value2 <<< 16) &&& 0xFF0000 = (value2 % 2 ^ 8) * 2 ^ 16 := shl_and_mask value2 16 8
  have h3 : ∀ x : Nat, x &&& 0x0000FF = x % 2 ^ 8 := fun x => Nat.and_pow_two_sub_one_eq_mod x 8
  have hl : 16 * (event_type % 16) + channel % 16 < 2 ^ 8 := by omega
  unfold midimsg_make
  simp only [Nat.zero_or]
  rw [h1, h2, h3, low_byte_eq, Nat.mod_eq_of_lt hl]
  have e1 : 16 * (event_type % 16) + channel % 16 ||| value1 % 2 ^ 8 * 2 ^ 8
      = 2 ^ 8 * (value1 % 2 ^ 8) + (16 * (event_type % 16) + channel % 16) := by
    rw [Nat.mul_add_lt_is_or hl, Nat.or_comm, Nat.mul_comm]
  rw [e1]
  have hm : 2 ^ 8 * (value1 % 2 ^ 8) + (16 * (event_type % 16) + channel % 16) < 2 ^ 16 := by omega
  rw [Nat.or_comm, Nat.mul_comm, ← Nat.mul_add_lt_is_or hm]
  omega

/-- C4: `midimsg_make` packs the low byte `((event_type << 4) & 0xF0) | (channel & 0x0F)`, then
`value1`, then `value2`, into a word below `2 ^ 24`. -/
theorem midimsg_make_encoding (event_type channel value1 value2 : Nat)
    (h1 : value1 < 256) (h2 : value2 < 256) :
    ((event_type <<< 4) &&& 0xF0) ||| (channel &&& 0x0F) < 256 ∧
    midimsg_make event_type channel value1 value2
      = (((event_type <<< 4) &&& 0xF0) ||| (channel &&& 0x0F)) + 256 * value1 + 65536 * value2 ∧
    midimsg_make event_type channel value1 value2 < 2 ^ 24 ∧
    midimsg_make event_type channel value1 value2 % 256
      = ((event_type <<< 4) &&& 0xF0) ||| (channel &&& 0x0F) ∧
    midimsg_make event_type channel value1 value2 / 256 % 256 = value1 ∧
    midimsg_make event_type channel value1 value2 / 65536 % 256 = value2 := by
  rw [midimsg_make_eq, low_byte_eq, Nat.mod_eq_of_lt h1, Nat.mod_eq_of_lt h2]
  refine ⟨?_, ?_, ?_, ?_, ?_, ?_⟩ <;> omega

/-- Witness of C4: the volume control-change on channel 3 with value 100. -/
theorem midimsg_make_encoding_witness :
    7 < 256 ∧ 100 < 256 ∧ midimsg_make 0xB 3 7 100 = 0xB3 + 256 * 7 + 65536 * 100 :=
  ⟨by decide, by decide, (midimsg_make_encoding 0xB 3 7 100 (by decide) (by decide)).2.1⟩

theorem and_mask_shr (m k w : Nat) : (m &&& ((2 ^ w - 1) <<< k)) >>> k = m / 2 ^ k % 2 ^ w := by
  rw [← Nat.shiftRight_eq_div_pow, ← Nat.and_pow_two_sub_one_eq_mod]
  apply Nat.eq_of_testBit_eq
  intro i
  simp [Nat.testBit_and, Nat.testBit_shiftLeft, Nat.testBit_shiftRight, Bool.and_comm]

theorem midimsg_get_event_type_eq (msg : Nat) : midimsg_get_event_type msg = msg / 16 % 16 :=
  and_mask_shr msg 4 4

theorem midimsg_get_channel_eq (msg : Nat) : midimsg_get_channel msg = msg % 16 :=
  Nat.and_pow_two_sub_one_eq_mod msg 4

theorem midimsg_get_value1_eq (msg : Nat) : midimsg_get_value1 msg = msg / 256 % 256 :=
  and_mask_shr msg 8 8

theorem midimsg_get_value2_eq (msg : Nat) : midimsg_get_value2 msg = msg / 65536 % 256 :=
  and_mask_shr msg 16 8

theorem midimsg_volume_decode (c v : Nat) (hc : c < 16) (hv : v < 256) :
    midimsg_get_event_type (midimsg_volume c v) = 0xB ∧
    midimsg_get_channel (midimsg_volume c v) = c ∧
    midimsg_get_value1 (midimsg_volume c v) = 7 ∧
    midimsg_get_value2 (midimsg_volume c v) = v := by
  simp only [midimsg_volume, midimsg_make_eq, midimsg_get_event_type_eq,
    midimsg_get_channel_eq, midimsg_get_value1_eq, midimsg_get_value2_eq,
    midi_event_control_change, midi_control_volume]
  omega

theorem toUInt8_lt (x : Flt) : Flt.toUInt8 x < 256 := by
  unfold Flt.toUInt8
  omega

/-- C2: a volume control-change (event type `0xB`, controller 7) on channel `c` with raw value
`r` stores `r` in `channel_volumes[c]`, leaves every other field of the engine alone, and
forwards exactly one message: the volume control-change on channel `c` whose data byte is
`static_cast<uint8_t>(r * volume)`. -/
theorem midi_message_volume_control {σ β : Type} (B : MidiDecoder β) (s : AudioDecoderMidi σ β)
    (track : Int) (message : Nat)
    (h1 : midimsg_get_event_type message = midi_event_control_change)
    (h2 : midimsg_get_value1 message = midi_control_volume) :
    midimsg_get_channel message < 16 ∧
    midi_message B s track message =
      { s with
        channel_volumes := Function.update s.channel_volumes
          (Fin.ofNat (midimsg_get_channel message)) (midimsg_get_value2 message),
        mididec := B.SendMidiMessage s.mididec
          (midimsg_volume (midimsg_get_channel message)
            (Flt.toUInt8 (fmul (fofInt (midimsg_get_value2 message)) s.volume))) } ∧
    (∀ i : Fin 16, (midi_message B s track message).channel_volumes i =
      if i.val = midimsg_get_channel message then midimsg_get_value2 message
      else s.channel_volumes i) ∧
    (midi_message B s track message).volume = s.volume ∧
    (midi_message B s track message).fade_end = s.fade_end ∧
    (midi_message B s track message).fade_steps = s.fade_steps ∧
    (midi_message B s track message).delta_step = s.delta_step ∧
    (midi_message B s track message).last_fade_mtime = s.last_fade_mtime ∧
    midimsg_get_event_type (midimsg_volume (midimsg_get_channel message)
      (Flt.toUInt8 (fmul (fofInt (midimsg_get_value2 message)) s.volume))) = 0xB ∧
    midimsg_get_channel (midimsg_volume (midimsg_get_channel message)
      (Flt.toUInt8 (fmul (fofInt (midimsg_get_value2 message)) s.volume)))
        = midimsg_get_channel message ∧
    midimsg_get_value1 (midimsg_volume (midimsg_get_channel message)
      (Flt.toUInt8 (fmul (fofInt (midimsg_get_value2 message)) s.volume))) = 7 ∧
    midimsg_get_value2 (midimsg_volume (midimsg_get_channel message)
      (Flt.toUInt8 (fmul (fofInt (midimsg_get_value2 message)) s.volume)))
        = Flt.toUInt8 (fmul (fofInt (midimsg_get_value2 message)) s.volume) := by
  have hc : midimsg_get_channel message < 16 := by
    rw [midimsg_get_channel_eq]; omega
  have hb := toUInt8_lt (fmul (fofInt (midimsg_get_value2 message)) s.volume)
  have hm : midi_message B s track message =
      { s with
        channel_volumes := Function.update s.channel_volumes
          (Fin.ofNat (midimsg_get_channel message)) (midimsg_get_value2 message),
        mididec := B.SendMidiMessage s.mididec
          (midimsg_volume (midimsg_get_channel message)
            (Flt.toUInt8 (fmul (fofInt (midimsg_get_value2 message)) s.volume))) } := by
    simp [midi_message, h1, h2]
  refine ⟨hc, hm, ?_, ?_, ?_, ?_, ?_, ?_, ?_, ?_, ?_, ?_⟩
  · intro i
    rw [hm]
    simp only [Function.update_apply]
    have : (i = Fin.ofNat (midimsg_get_channel message)) ↔ i.val = midimsg_get_channel message := by
      rw [Fin.ext_iff]
      simp [Fin.ofNat, Nat.mod_eq_of_lt hc]
    simp only [this]
  · rw [hm]
  · rw [hm]
  · rw [hm]
  · rw [hm]
  · rw [hm]
  · exact (midimsg_volume_decode _ _ hc hb).1
  · exact (midimsg_volume_decode _ _ hc hb).2.1
  · exact (midimsg_volume_decode _ _ hc hb).2.2.1
  · exact (midimsg_volume_decode _ _ hc hb).2.2.2

/-- Witness of C2: volume 100 on channel 3 at master volume 0.5 is forwarded as volume 50. -/
theorem midi_message_volume_control_witness :
    midimsg_get_event_type 0x6407B3 = midi_event_control_change ∧
    midimsg_get_value1 0x6407B3 = midi_control_volume ∧
    journal (midi_message recorder halfVolumeEngine 0 0x6407B3)
      = [BackendCall.message 0x3207B3] ∧
    (midi_message recorder halfVolumeEngine 0 0x6407B3).channel_volumes 3 = 100 :=
  ⟨by decide, by decide,
    by rw [(midi_message_volume_control recorder halfVolumeEngine 0 0x6407B3
        (by decide) (by decide)).2.1]; decide!,
    by decide!⟩

/-- C3: a channel message that is not a volume control-change is forwarded unchanged, as the one
message sent, and no field of the engine other than the backend changes. -/
theorem midi_message_pass_through {σ β : Type} (B : MidiDecoder β) (s : AudioDecoderMidi σ β)
    (track : Int) (message : Nat)
    (h : midimsg_get_event_type message ≠ 0xB ∨ midimsg_get_value1 message ≠ 7) :
    midi_message B s track message = { s with mididec := B.SendMidiMessage s.mididec message } ∧
    (midi_message B s track message).channel_volumes = s.channel_volumes := by
  have hn : ¬ (midimsg_get_event_type message = midi_event_control_change ∧
      midimsg_get_value1 message = midi_control_volume) := by
    intro hh
    rcases h with h | h
    · exact h hh.1
    · exact h hh.2
  have hm : midi_message B s track message
      = { s with mididec := B.SendMidiMessage s.mididec message } := by
    unfold midi_message
    simp only [hn, if_false]
  exact ⟨hm, by rw [hm]⟩

/-- Witness of C3: a note-on on channel 3 is forwarded as it is. -/
theorem midi_message_pass_through_witness :
    (midimsg_get_event_type 0x7F3C93 ≠ 0xB ∨ midimsg_get_value1 0x7F3C93 ≠ 7) ∧
    journal (midi_message recorder halfVolumeEngine 0 0x7F3C93)
      = [BackendCall.message 0x7F3C93] :=
  ⟨by decide,
    by rw [(midi_message_pass_through recorder halfVolumeEngine 0 0x7F3C93 (by decide)).1]; decide!⟩

/-! ## Callbacks and the buffer fill loop -/

section EngineLemmas

variable {σ β : Type} (W : Sequencer σ) (B : MidiDecoder β)

theorem midi_message_tempo (s : AudioDecoderMidi σ β) (track : Int) (message : Nat) :
    (midi_message B s track message).tempo = s.tempo := by
  unfold midi_message
  dsimp only
  split <;> rfl

theorem meta_event_some (s : AudioDecoderMidi σ β) (event : Int) (data : List Nat)
    (h : s.tempo ≠ []) : ∃ s1, meta_event W s event data = some s1 ∧ s1.tempo ≠ [] := by
  unfold meta_event
  cases hb : s.tempo.getLast? with
  | none => exact absurd (List.getLast?_eq_none_iff.mp hb) h
  | some back =>
    by_cases hc : data.length = 3 ∧ event = 0x51
    · simp only [hc, and_self, if_true]
      exact ⟨_, rfl, by simp⟩
    · simp only [hc, if_false]
      exact ⟨s, rfl, h⟩

theorem dispatch_some (s : AudioDecoderMidi σ β) (e : SeqEvent) (h : s.tempo ≠ []) :
    ∃ s1, dispatch W B s e = some s1 ∧ s1.tempo ≠ [] := by
  cases e with
  | midi track message =>
    refine ⟨_, rfl, ?_⟩
    rw [midi_message_tempo]
    exact h
  | sysex track data => exact ⟨_, rfl, h⟩
  | metaEv event data => exact meta_event_some W s event data h

theorem foldlM_dispatch_some (es : List SeqEvent) (s : AudioDecoderMidi σ β) (h : s.tempo ≠ []) :
    ∃ s1, es.foldlM (dispatch W B) s = some s1 ∧ s1.tempo ≠ [] := by
  induction es generalizing s with
  | nil => exact ⟨s, rfl, h⟩
  | cons e es ih =>
    obtain ⟨s1, h1, h2⟩ := dispatch_some W B s e h
    obtain ⟨s2, h3, h4⟩ := ih s1 h2
    refine ⟨s2, ?_, h4⟩
    rw [List.foldlM_cons, h1]
    exact h3

/-- On a non-empty tempo list `seq->play` hits no failing assertion and leaves the list
non-empty. -/
theorem seq_play_some (s : AudioDecoderMidi σ β) (h : s.tempo ≠ []) :
    ∃ s1, seq_play W B s = some s1 ∧ s1.tempo ≠ [] := by
  obtain ⟨s1, h1, h2⟩ := foldlM_dispatch_some W B (W.play s.seq s.mtime).2 s h
  refine ⟨{ s1 with seq := (W.play s.seq s.mtime).1 }, ?_, h2⟩
  unfold seq_play
  simp only [h1, Option.map_some']

/-- One iteration of the slice loop. -/
theorem FillBuffer_loop_step (n : Nat) (s s1 : AudioDecoderMidi σ β) (buffer : List Nat)
    (samples_max written : Int) (h1 : seq_play W B s = some s1) (hp : 0 < samples_max) :
    ∃ s2 : AudioDecoderMidi σ β, s2.tempo = s1.tempo ∧
      s2.mididec = (B.FillBuffer s1.mididec buffer written (min 512 samples_max * 4)).1 ∧
      FillBuffer_loop W B (n + 1) s buffer samples_max written =
        if min 512 samples_max < 512 ∨
            (B.FillBuffer s1.mididec buffer written (min 512 samples_max * 4)).2.2
              < min 512 samples_max * 4 then
          some (s2, (B.FillBuffer s1.mididec buffer written (min 512 samples_max * 4)).2.1,
            written + (B.FillBuffer s1.mididec buffer written (min 512 samples_max * 4)).2.2)
        else
          FillBuffer_loop W B n s2
            (B.FillBuffer s1.mididec buffer written (min 512 samples_max * 4)).2.1
            (samples_max - min 512 samples_max)
            (written + (B.FillBuffer s1.mididec buffer written (min 512 samples_max * 4)).2.2) := by
  refine ⟨{ s1 with
      mtime := fadd s1.mtime (fdiv (fofInt (min samples_per_play samples_max))
        (fdiv (fofInt (s.frequency * s.pitch)) (Flt.lit binary32 100 1))),
      mididec := (B.FillBuffer s1.mididec buffer written (min 512 samples_max * 4)).1 },
    rfl, rfl, ?_⟩
  rw [FillBuffer_loop]
  simp only [hp, if_true, h1, samples_per_play, bytes_per_sample]

theorem FillBuffer_loop_stop (n : Nat) (s : AudioDecoderMidi σ β) (buffer : List Nat)
    (samples_max written : Int) (hp : ¬ 0 < samples_max) :
    FillBuffer_loop W B (n + 1) s buffer samples_max written = some (s, buffer, written) := by
  rw [FillBuffer_loop]
  simp only [hp, if_false]

/-- The slice loop leaves through `break` or its condition before the fuel runs out. -/
theorem FillBuffer_loop_some (fuel : Nat) (s : AudioDecoderMidi σ β) (buffer : List Nat)
    (samples_max written : Int) (h : s.tempo ≠ []) (hf : samples_max < 512 * fuel)
    (hf0 : 0 < fuel) :
    ∃ r, FillBuffer_loop W B fuel s buffer samples_max written = some r := by
  induction fuel generalizing s buffer samples_max written with
  | zero => omega
  | succ n ih =>
    by_cases hp : 0 < samples_max
    · obtain ⟨s1, h1, h2⟩ := seq_play_some W B s h
      obtain ⟨s2, ht, -, he⟩ := FillBuffer_loop_step W B n s s1 buffer samples_max written h1 hp
      rw [he]
      split
      · exact ⟨_, rfl⟩
      · rename_i hc
        simp only [not_or, not_lt] at hc
        apply ih
        · rw [ht]; exact h2
        · omega
        · omega
    · rw [FillBuffer_loop_stop W B n s buffer samples_max written hp]
      exact ⟨_, rfl⟩

/-- With a backend that writes all it is asked for the loop writes every whole frame. -/
theorem FillBuffer_loop_full (hfull : ∀ b buf off len, (B.FillBuffer b buf off len).2.2 = len)
    (fuel : Nat) (s : AudioDecoderMidi σ β) (buffer : List Nat)
    (samples_max written : Int) (h : s.tempo ≠ []) (hf : samples_max < 512 * fuel)
    (hf0 : 0 < fuel) :
    ∃ s1 buf1, FillBuffer_loop W B fuel s buffer samples_max written
      = some (s1, buf1, written + 4 * max samples_max 0) := by
  induction fuel generalizing s buffer samples_max written with
  | zero => omega
  | succ n ih =>
    by_cases hp : 0 < samples_max
    · obtain ⟨s1, h1, h2⟩ := seq_play_some W B s h
      obtain ⟨s2, ht, -, he⟩ := FillBuffer_loop_step W B n s s1 buffer samples_max written h1 hp
      rw [he]
      simp only [hfull]
      split
      · rename_i hc
        refine ⟨s2, (B.FillBuffer s1.mididec buffer written (min 512 samples_max * 4)).2.1, ?_⟩
        congr 3
        omega
      · rename_i hc
        simp only [not_or, not_lt] at hc
        obtain ⟨s3, buf3, hi⟩ := ih s2
          (B.FillBuffer s1.mididec buffer written (min 512 samples_max * 4)).2.1
          (samples_max - min 512 samples_max) (written + min 512 samples_max * 4)
          (by rw [ht]; exact h2) (by omega) (by omega)
        refine ⟨s3, buf3, ?_⟩
        rw [hi]
        congr 3
        omega
    · rw [FillBuffer_loop_stop W B n s buffer samples_max written hp]
      refine ⟨s, buffer, ?_⟩
      congr 3
      omega

/-- A result short of the whole frames comes from a short write, the last call made. -/
theorem FillBuffer_loop_short (fuel : Nat) (s : AudioDecoderMidi σ (β × List BackendCall))
    (buffer : List Nat) (samples_max written : Int)
    (s1 : AudioDecoderMidi σ (β × List BackendCall)) (buf1 : List Nat) (w : Int)
    (h : FillBuffer_loop W B.recording fuel s buffer samples_max written = some (s1, buf1, w))
    (hw : w < written + 4 * max samples_max 0) :
    ∃ pre off len res, journal s1 = pre ++ [BackendCall.fill off len res] ∧ res < len := by
  induction fuel generalizing s buffer samples_max written with
  | zero => simp [FillBuffer_loop] at h
  | succ n ih =>
    by_cases hp : 0 < samples_max
    · cases hs : seq_play W B.recording s with
      | none =>
        rw [FillBuffer_loop] at h
        simp [hp, hs] at h
      | some s0 =>
        obtain ⟨s2, -, hd, he⟩ :=
          FillBuffer_loop_step W B.recording n s s0 buffer samples_max written hs hp
        rw [he] at h
        split at h
        · rename_i hc
          simp only [Option.some.injEq, Prod.mk.injEq] at h
          obtain ⟨h1, -, h3⟩ := h
          refine ⟨s0.mididec.2, written, min 512 samples_max * 4,
            (B.recording.FillBuffer s0.mididec buffer written (min 512 samples_max * 4)).2.2, ?_, ?_⟩
          · rw [← h1, journal, hd]
            rfl
          · omega
        · rename_i hc
          simp only [not_or, not_lt] at hc
          exact ih _ _ _ _ h (by omega)
    · rw [FillBuffer_loop_stop W B.recording n s buffer samples_max written hp] at h
      simp only [Option.some.injEq, Prod.mk.injEq] at h
      omega

end EngineLemmas

theorem FillBuffer_unfold {σ β : Type} (W : Sequencer σ) (B : MidiDecoder β)
    (s : AudioDecoderMidi σ β) (buffer : List Nat) (length : Int) (hlen : 0 ≤ length)
    (hl : s.loops_to_end = false) :
    FillBuffer W B s buffer length
      = FillBuffer_loop W B ((length / 4).toNat / 512 + 1) s buffer (length / 4) 0 := by
  unfold FillBuffer
  simp only [hl, bytes_per_sample, Int.tdiv_eq_ediv hlen (by decide : (0 : Int) ≤ 4)]
  rfl

theorem FillBuffer_fuel (length : Int) (hlen : 0 ≤ length) :
    length / 4 < 512 * (((length / 4).toNat / 512 + 1 : Nat) : Int) := by
  have h0 : 0 ≤ length / 4 := by omega
  have h1 : (((length / 4).toNat : Nat) : Int) = length / 4 := Int.toNat_of_nonneg h0
  omega

/-- C1 (corrected): on a loaded engine that is not held at its end, `FillBuffer(buffer, N)`
with `0 ≤ N` returns, and when the backend always writes all the bytes it is asked for the
return value is `4 * (N / 4)`: `N` rounded down to whole 4-byte sample frames, which is `N` only
for a multiple of 4.  With any backend the return value is below `4 * (N / 4)` only when a backend
call wrote fewer bytes than it was asked for: the last call in the journal of the run. -/
theorem FillBuffer_byte_count {σ β : Type} (W : Sequencer σ) (B : MidiDecoder β)
    (s : AudioDecoderMidi σ β) (sr : AudioDecoderMidi σ (β × List BackendCall))
    (buffer : List Nat) (length : Int) (hlen : 0 ≤ length)
    (hl : s.loops_to_end = false) (ht : s.tempo ≠ [])
    (hlr : sr.loops_to_end = false) :
    (∃ r, FillBuffer W B s buffer length = some r) ∧
    ((∀ b buf off len, (B.FillBuffer b buf off len).2.2 = len) →
      ∃ s1 buf1, FillBuffer W B s buffer length = some (s1, buf1, 4 * (length / 4))) ∧
    (∀ s1 buf1 w, FillBuffer W B.recording sr buffer length = some (s1, buf1, w) →
      w < 4 * (length / 4) →
      ∃ pre off len res, journal s1 = pre ++ [BackendCall.fill off len res] ∧ res < len) := by
  have hf := FillBuffer_fuel length hlen
  refine ⟨?_, ?_, ?_⟩
  · rw [FillBuffer_unfold W B s buffer length hlen hl]
    exact FillBuffer_loop_some W B _ s buffer _ 0 ht hf (by omega)
  · intro hfull
    rw [FillBuffer_unfold W B s buffer length hlen hl]
    obtain ⟨s1, buf1, h⟩ := FillBuffer_loop_full W B hfull _ s buffer (length / 4) 0 ht hf (by omega)
    refine ⟨s1, buf1, ?_⟩
    rw [h]
    congr 3
    omega
  · intro s1 buf1 w h hw
    rw [FillBuffer_unfold W B.recording sr buffer length hlen hlr] at h
    exact FillBuffer_loop_short W B _ sr buffer (length / 4) 0 s1 buf1 w h (by omega)

/-- Witness of C1: 5000 bytes asked of `fullBackend`, which writes every byte asked for. -/
theorem FillBuffer_byte_count_witness :
    (0 : Int) ≤ 5000 ∧ loadedEngine.loops_to_end = false ∧ loadedEngine.tempo ≠ [] ∧
    ∃ s1 buf1, FillBuffer walker480 recorder loadedEngine [] 5000 = some (s1, buf1, 5000) :=
  ⟨by decide, by decide!, by decide!,
    (FillBuffer_byte_count walker480 recorder loadedEngine
      (AudioDecoderMidi.create () (((), []), [])) [] 5000 (by decide) (by decide!) (by decide!)
      (by decide!)).2.1 (fun _ _ _ _ => rfl)⟩

/-- C1 refuted: with `loops_to_end` false and a backend that writes every byte it is asked for
(`fullBackend`), `FillBuffer(buffer, 2049)` makes one backend call for 2048 bytes and returns
2048, not 2049. -/
theorem FillBuffer_2049_returns_2048 :
    (2048 : Int) < 2049 ∧ loadedEngine.loops_to_end = false ∧
    (FillBuffer walker480 recorder loadedEngine [] 2049).map
      (fun r => (r.2.2, journal r.1)) = some (2048, [BackendCall.fill 0 2048 2048]) :=
  ⟨by decide, by decide!, by decide!⟩

/-! ## The tempo track -/

/-- The comparison `<=` of floating-point data is transitive. -/
theorem Flt.le_trans (a b c : Flt) (h1 : Flt.le a b = true) (h2 : Flt.le b c = true) :
    Flt.le a c = true := by
  cases a with
  | nan => simp [Flt.le] at h1
  | inf x =>
    cases b with
    | nan => cases x <;> simp [Flt.le] at h1
    | inf y =>
      cases c with
      | nan => cases y <;> simp [Flt.le] at h2
      | inf z => cases x <;> cases y <;> cases z <;> simp [Flt.le] at *
      | fin z k => cases x <;> cases y <;> simp [Flt.le] at *
    | fin y m =>
      cases c with
      | nan => simp [Flt.le] at h2
      | inf z => cases x <;> cases z <;> simp [Flt.le] at *
      | fin z k => cases x <;> simp [Flt.le] at *
  | fin x n =>
    cases b with
    | nan => simp [Flt.le] at h1
    | inf y =>
      cases c with
      | nan => cases y <;> simp [Flt.le] at h2
      | inf z => cases y <;> cases z <;> simp [Flt.le] at *
      | fin z k => cases y <;> simp [Flt.le] at *
    | fin y m =>
      cases c with
      | nan => simp [Flt.le] at h2
      | inf z => cases z <;> simp [Flt.le] at *
      | fin z k =>
        simp only [Flt.le, decide_eq_true_eq] at *
        omega

theorem Flt.le_eq_not_lt (a b : Flt) (ha : a ≠ Flt.nan) (hb : b ≠ Flt.nan) :
    Flt.le a b = !Flt.lt b a := by
  cases a with
  | nan => exact absurd rfl ha
  | inf x =>
    cases b with
    | nan => exact absurd rfl hb
    | inf y => cases x <;> cases y <;> simp [Flt.le, Flt.lt]
    | fin y m => cases x <;> simp [Flt.le, Flt.lt]
  | fin x n =>
    cases b with
    | nan => exact absurd rfl hb
    | inf y => cases y <;> simp [Flt.le, Flt.lt]
    | fin y m =>
      simp only [Flt.le, Flt.lt]
      by_cases h : Flt.sval x n ≤ Flt.sval y m
      · simp [h]
      · simp only [h, decide_False]
        simp only [not_le] at h
        simp [h]

theorem Flt.lt_ne_nan (a b : Flt) (h : Flt.lt a b = true) : b ≠ Flt.nan := by
  intro hb
  subst hb
  cases a with
  | nan => simp [Flt.lt] at h
  | inf x => cases x <;> simp [Flt.lt] at h
  | fin x n => simp [Flt.lt] at h

/-- On a list in non-decreasing order of `mtime` the reverse search and erase keeps exactly the
records with `mtime <= t`. -/
theorem erase_after_loop_point_eq_filter (tempo : List MidiTempoData) (t : Flt)
    (hs : tempo.Chain' (fun a b => Flt.le a.mtime b.mtime = true)) :
    erase_after_loop_point tempo t = tempo.filter (fun r => Flt.le r.mtime t) := by
  haveI : IsTrans MidiTempoData (fun a b => Flt.le a.mtime b.mtime = true) :=
    ⟨fun a b c h1 h2 => Flt.le_trans _ _ _ h1 h2⟩
  rw [List.chain'_iff_pairwise] at hs
  unfold erase_after_loop_point
  induction tempo using List.reverseRecOn with
  | nil => rfl
  | append_singleton l a ih =>
    rw [List.pairwise_append] at hs
    obtain ⟨hl, -, hla⟩ := hs
    by_cases ha : Flt.le a.mtime t = true
    · rw [List.rdropWhile_concat_neg _ _ _ (by simp [ha])]
      rw [List.filter_append]
      have h1 : l.filter (fun r => Flt.le r.mtime t) = l := by
        rw [List.filter_eq_self]
        intro x hx
        exact Flt.le_trans _ _ _ (hla x hx a (by simp)) ha
      rw [h1]
      simp [List.filter, ha]
    · rw [List.rdropWhile_concat_pos _ _ _ (by simp [ha])]
      rw [List.filter_append, ih hl]
      simp [List.filter, ha]

theorem getLast?_filter_eq_find?_reverse {α : Type} (p : α → Bool) (l : List α) :
    (l.filter p).getLast? = l.reverse.find? p := by
  rw [List.getLast?_eq_head?_reverse, ← List.filter_reverse]
  induction l.reverse with
  | nil => rfl
  | cons a l ih =>
    by_cases h : p a = true
    · simp [List.filter, h]
    · simp only [Bool.not_eq_true] at h
      simp [List.filter, h, ih]

/-- C6: on a tempo list in non-decreasing order of creation time, a rewind to a loop point at
time `t > 0` (by `Seek(0, beg)` or by `reset_tempos_after_loop`) leaves exactly the records with
`mtime <= t`, in their order, which for numbers is: exactly the records with `mtime > t` are
discarded.  The tick count at `t` afterwards is the one given before by the most recent record
with `mtime <= t`. -/
theorem Seek_truncates_tempo {σ β : Type} (W : Sequencer σ) (s : AudioDecoderMidi σ β)
    (hne : s.tempo ≠ [])
    (hs : s.tempo.Chain' (fun a b => Flt.le a.mtime b.mtime = true))
    (ht : Flt.lt f0 (W.rewind_to_loop s.seq).2 = true) :
    ∃ s1, Seek W s 0 seekdir.beg = some (s1, true) ∧
      s1.mtime = (W.rewind_to_loop s.seq).2 ∧
      s1.tempo = s.tempo.filter (fun r => Flt.le r.mtime (W.rewind_to_loop s.seq).2) ∧
      (reset_tempos_after_loop W
          { s with seq := (W.rewind_to_loop s.seq).1, mtime := (W.rewind_to_loop s.seq).2 }).tempo
        = s.tempo.filter (fun r => Flt.le r.mtime (W.rewind_to_loop s.seq).2) ∧
      ((∀ r ∈ s.tempo, r.mtime ≠ Flt.nan) →
        s1.tempo = s.tempo.filter (fun r => !Flt.lt (W.rewind_to_loop s.seq).2 r.mtime)) ∧
      GetTicks s1 = (s.tempo.reverse.find? (fun r => Flt.le r.mtime (W.rewind_to_loop s.seq).2)).map
        (fun r => r.GetTicks (W.rewind_to_loop s.seq).2) := by
  have he : s.tempo.isEmpty = false := by
    cases h : s.tempo with
    | nil => exact absurd h hne
    | cons a l => rfl
  have hf := erase_after_loop_point_eq_filter s.tempo (W.rewind_to_loop s.seq).2 hs
  refine ⟨{ s with
      seq := (W.rewind_to_loop s.seq).1, mtime := (W.rewind_to_loop s.seq).2,
      loops_to_end := Flt.le (W.get_total_time (W.rewind_to_loop s.seq).1) (W.rewind_to_loop s.seq).2,
      tempo := erase_after_loop_point s.tempo (W.rewind_to_loop s.seq).2 }, ?_, rfl, hf, ?_, ?_, ?_⟩
  · unfold Seek
    simp only [he, ht, if_true, and_self]
    rfl
  · unfold reset_tempos_after_loop
    simp only [ht, if_true]
    exact hf
  · intro hn
    show erase_after_loop_point s.tempo (W.rewind_to_loop s.seq).2 = _
    rw [hf]
    apply List.filter_congr
    intro r hr
    exact Flt.le_eq_not_lt _ _ (hn r hr) (Flt.lt_ne_nan _ _ ht)
  · unfold GetTicks
    show (erase_after_loop_point s.tempo (W.rewind_to_loop s.seq).2).getLast?.map _ = _
    rw [hf, getLast?_filter_eq_find?_reverse]

/-- Witness of C6: records created at 0, 1 and 2 seconds and a loop point at 1.5 seconds. -/
theorem Seek_truncates_tempo_witness :
    threeTempoEngine.tempo ≠ [] ∧
    threeTempoEngine.tempo.Chain' (fun a b => Flt.le a.mtime b.mtime = true) ∧
    Flt.lt f0 (walkerLoopMid.rewind_to_loop threeTempoEngine.seq).2 = true ∧
    ∃ s1, Seek walkerLoopMid threeTempoEngine 0 seekdir.beg = some (s1, true) ∧
      s1.tempo = [tempoRec0, tempoRec1] := by
  have h1 : threeTempoEngine.tempo ≠ [] := by decide!
  have h2 : threeTempoEngine.tempo.Chain' (fun a b => Flt.le a.mtime b.mtime = true) := by
    refine List.Chain'.cons ?_ (List.Chain'.cons ?_ (List.chain'_singleton _)) <;> decide!
  have h3 : Flt.lt f0 (walkerLoopMid.rewind_to_loop threeTempoEngine.seq).2 = true := by decide!
  obtain ⟨s1, e1, -, e2, -⟩ := Seek_truncates_tempo walkerLoopMid threeTempoEngine h1 h2 h3
  exact ⟨h1, h2, h3, s1, e1, e2.trans (by decide!)⟩

/-- C5: on the freshly loaded engine (division 480, default tempo, 960 ticks per second) at
virtual time 1 the tick position is 960; the tempo-change meta event to 1000000 microseconds
per quarter note at that same virtual time lowers it to 480, because the new record counts
the second already played at the new rate of 480 ticks per second. -/
theorem GetTicks_drops_at_tempo_change :
    (Update walker480 recorder loadedEngine 1000).map (fun s => (s.mtime, GetTicks s))
      = some (Flt.dy 1 0, some 960) ∧
    (Update walker480 recorder loadedEngine 1000).map
        (fun s => s.tempo.map (fun r => (r.tempo, r.ticks_per_sec, r.mtime, r.ticks)))
      = some [(500000, Flt.dy 960 0, f0, 0)] ∧
    ((Update walker480 recorder loadedEngine 1000).bind
        (fun s => meta_event walker480 s 0x51 [0x0F, 0x42, 0x40])).map
        (fun s => (s.mtime, GetTicks s))
      = some (Flt.dy 1 0, some 480) ∧
    ((Update walker480 recorder loadedEngine 1000).bind
        (fun s => meta_event walker480 s 0x51 [0x0F, 0x42, 0x40])).map
        (fun s => s.tempo.map (fun r => (r.tempo, r.ticks_per_sec, r.mtime, r.ticks)))
      = some [(500000, Flt.dy 960 0, f0, 0), (1000000, Flt.dy 480 0, Flt.dy 1 0, 480)] := by
  refine ⟨?_, ?_, ?_, ?_⟩ <;> decide!

/-- C7: `Open` on a file whose first note is at 2 seconds leaves one tempo record, created at
time 2; `Seek(0, beg)` to the loop point at 1 second then erases it and leaves the tempo list
empty, after which the assertions of `Seek`, `GetTicks` and `meta_event` fail. -/
theorem Seek_empties_tempo_list :
    ((Open walkerLateStart recorder (AudioDecoderMidi.create () ((), [])) []).2,
      (Open walkerLateStart recorder (AudioDecoderMidi.create () ((), [])) []).1.tempo.map
        (fun r => (r.tempo, r.mtime)))
      = (true, [(500000, Flt.dy 2 0)]) ∧
    (Seek walkerLateStart
        (Open walkerLateStart recorder (AudioDecoderMidi.create () ((), [])) []).1
        0 seekdir.beg).map (fun r => (r.2, r.1.mtime, r.1.tempo))
      = some (true, Flt.dy 1 0, []) ∧
    ((Seek walkerLateStart
        (Open walkerLateStart recorder (AudioDecoderMidi.create () ((), [])) []).1
        0 seekdir.beg).bind (fun r => Seek walkerLateStart r.1 0 seekdir.beg)).isNone = true ∧
    ((Seek walkerLateStart
        (Open walkerLateStart recorder (AudioDecoderMidi.create () ((), [])) []).1
        0 seekdir.beg).bind (fun r => GetTicks r.1)) = none ∧
    ((Seek walkerLateStart
        (Open walkerLateStart recorder (AudioDecoderMidi.create () ((), [])) []).1
        0 seekdir.beg).bind
          (fun r => meta_event walkerLateStart r.1 0x51 [0x07, 0xA1, 0x20])).isNone = true := by
  refine ⟨?_, ?_, ?_, ?_, ?_⟩ <;> decide!

theorem tempo_bytes (d0 d1 d2 : Nat) (h0 : d0 < 256) (h1 : d1 < 256) (h2 : d2 < 256) :
    (((d0 % 256) <<< 16) ||| ((d1 % 256) <<< 8) ||| (d2 % 256))
      = 65536 * d0 + 256 * d1 + d2 := by
  rw [Nat.mod_eq_of_lt h0, Nat.mod_eq_of_lt h1, Nat.mod_eq_of_lt h2]
  have e1 : d0 <<< 16 ||| d1 <<< 8 = 2 ^ 16 * d0 + d1 * 2 ^ 8 := by
    rw [Nat.shiftLeft_eq, Nat.shiftLeft_eq, Nat.mul_comm d0]
    exact (Nat.mul_add_lt_is_or (by omega) d0).symm
  have e2 : 2 ^ 16 * d0 + d1 * 2 ^ 8 = 2 ^ 8 * (256 * d0 + d1) := by omega
  rw [e1, e2, ← Nat.mul_add_lt_is_or (by omega)]
  omega

theorem fofInt_zero : fofInt 0 = Flt.fin false 0 := by
  simp [fofInt, Flt.ofInt, Flt.round]

/-- A quotient by `0.0f` is an infinity or not a number. -/
theorem fdiv_zero (x : Flt) :
    fdiv x (fofInt 0) = Flt.nan ∨ fdiv x (fofInt 0) = Flt.inf false
      ∨ fdiv x (fofInt 0) = Flt.inf true := by
  rw [fofInt_zero]
  unfold fdiv
  cases x with
  | nan => simp [Flt.div]
  | inf a => cases a <;> simp [Flt.div]
  | fin a n =>
    by_cases hn : n = 0
    · simp [Flt.div, hn]
    · cases a <;> simp [Flt.div, hn]

/-- A product with an infinity or not a number on the left is again one of them. -/
theorem fmul_not_finite (x y : Flt)
    (hx : x = Flt.nan ∨ x = Flt.inf false ∨ x = Flt.inf true) :
    fmul x y = Flt.nan ∨ fmul x y = Flt.inf false ∨ fmul x y = Flt.inf true := by
  unfold fmul
  rcases hx with h | h | h <;> subst h
  · simp [Flt.mul]
  · cases y with
    | nan => simp [Flt.mul]
    | inf b => cases b <;> simp [Flt.mul]
    | fin b m =>
      by_cases hm : m = 0
      · simp [Flt.mul, hm]
      · cases b <;> simp [Flt.mul, hm]
  · cases y with
    | nan => simp [Flt.mul]
    | inf b => cases b <;> simp [Flt.mul]
    | fin b m =>
      by_cases hm : m = 0
      · simp [Flt.mul, hm]
      · cases b <;> simp [Flt.mul, hm]

/-- The conversion of an infinity or of not a number to `int`. -/
theorem toInt_not_finite (x : Flt)
    (hx : x = Flt.nan ∨ x = Flt.inf false ∨ x = Flt.inf true) :
    Flt.toInt x = -2147483648 := by
  rcases hx with h | h | h <;> subst h <;> rfl

/-- C8 refuted: the tempo-change meta event with data bytes `00 00 00` appends a record with
tempo value 0, whose tick rate `(float)480 / 0 * 1000000` is an infinity; the tick count of
the record, the conversion of not a number to `int` added to the 0 ticks of the record before,
is `INT_MIN`. -/
theorem meta_event_appends_zero_tempo :
    loadedEngine.tempo.map (fun r => (r.tempo, r.ticks_per_sec, r.mtime, r.ticks))
      = [(500000, Flt.dy 960 0, f0, 0)] ∧
    (meta_event walker480 loadedEngine 0x51 [0, 0, 0]).map
        (fun s => s.tempo.map (fun r => (r.tempo, r.ticks_per_sec, r.mtime, r.ticks)))
      = some [(500000, Flt.dy 960 0, f0, 0), (0, Flt.inf false, f0, -2147483648)] ∧
    fsub loadedEngine.mtime f0 = f0 ∧ fmul (Flt.inf false) f0 = Flt.nan ∧
    Flt.toInt Flt.nan = -2147483648 := by
  refine ⟨?_, ?_, ?_, ?_, ?_⟩ <;> decide!

/-- C8 (corrected): on a non-empty tempo list the tempo-change meta event (code `0x51`, three
data bytes) always appends exactly one record and changes nothing else.  The tempo value of the
record is the 24-bit big-endian number of the bytes, its tick rate is
`(float)division / tempo * 1000000`, its time is the virtual time, and its tick count is the
tick count of the last record plus `static_cast<int>(ticks_per_sec * (mtime - back.mtime))`, as
an `int`.  For the bytes `00 00 00` the value is neither rejected nor clamped: the record has
tempo value 0, a tick rate that is an infinity or not a number, and the tick count of the last
record plus `INT_MIN`, wrapped to an `int`.  Any other meta event leaves the engine as it is. -/
theorem meta_event_appends_record {σ β : Type} (W : Sequencer σ) (s : AudioDecoderMidi σ β)
    (back : MidiTempoData) (d0 d1 d2 : Nat) (hb : s.tempo.getLast? = some back)
    (h0 : d0 < 256) (h1 : d1 < 256) (h2 : d2 < 256) :
    meta_event W s 0x51 [d0, d1, d2] = some { s with tempo := s.tempo ++
      [{ tempo := 65536 * d0 + 256 * d1 + d2,
         ticks_per_sec := fmul (fdiv (fofInt (W.get_division s.seq))
            (fofInt (65536 * d0 + 256 * d1 + d2 : Nat))) (fofInt 1000000),
         mtime := s.mtime,
         ticks := (back.ticks + Flt.toInt (fmul (fmul (fdiv (fofInt (W.get_division s.seq))
            (fofInt (65536 * d0 + 256 * d1 + d2 : Nat))) (fofInt 1000000))
              (fsub s.mtime back.mtime)) + 2147483648) % 4294967296 - 2147483648 }] } ∧
    meta_event W s 0x51 [0, 0, 0] = some { s with tempo := s.tempo ++
      [{ tempo := 0,
         ticks_per_sec := fmul (fdiv (fofInt (W.get_division s.seq)) (fofInt 0)) (fofInt 1000000),
         mtime := s.mtime,
         ticks := back.ticks % 4294967296 - 2147483648 }] } ∧
    (fmul (fdiv (fofInt (W.get_division s.seq)) (fofInt 0)) (fofInt 1000000) = Flt.nan ∨
      fmul (fdiv (fofInt (W.get_division s.seq)) (fofInt 0)) (fofInt 1000000) = Flt.inf false ∨
      fmul (fdiv (fofInt (W.get_division s.seq)) (fofInt 0)) (fofInt 1000000) = Flt.inf true) ∧
    (∀ (event : Int) (data : List Nat), ¬ (data.length = 3 ∧ event = 0x51) →
      meta_event W s event data = some s) := by
  have hgen : ∀ e0 e1 e2 : Nat, e0 < 256 → e1 < 256 → e2 < 256 →
      meta_event W s 0x51 [e0, e1, e2] = some { s with tempo := s.tempo ++
        [MidiTempoData.new (W.get_division s.seq) s.mtime (65536 * e0 + 256 * e1 + e2)
          (some back)] } := by
    intro e0 e1 e2 g0 g1 g2
    have hv := tempo_bytes e0 e1 e2 g0 g1 g2
    unfold meta_event
    simp only [hb, List.length_cons, List.length_nil, List.getD_cons_zero, List.getD_cons_succ]
    simp [hv]
  have hinf := fmul_not_finite _ (fofInt 1000000) (fdiv_zero (fofInt (W.get_division s.seq)))
  refine ⟨?_, ?_, hinf, ?_⟩
  · rw [hgen d0 d1 d2 h0 h1 h2]
    simp only [MidiTempoData.new, wrap_int]
  · rw [hgen 0 0 0 (by decide) (by decide) (by decide)]
    have hc := toInt_not_finite _ (fmul_not_finite _ (fsub s.mtime back.mtime) hinf)
    simp only [MidiTempoData.new, wrap_int, Nat.mul_zero, Nat.add_zero, Nat.cast_zero, hc]
    have e : (back.ticks + -2147483648 + 2147483648) % 4294967296 - 2147483648
        = back.ticks % 4294967296 - 2147483648 := by
      omega
    rw [e]
  · intro event data hn
    unfold meta_event
    simp only [hb, hn, if_false]

/-- Witness of C8: the data bytes `00 00 01` on the loaded engine at virtual time 10, where the
product `480000000 * 10` is beyond the range of `int` and its conversion is `INT_MIN`. -/
theorem meta_event_appends_record_witness :
    lateEngine.tempo.getLast? = some tempoRec0 ∧ 1 < 256 ∧
    (meta_event walker480 lateEngine 0x51 [0, 0, 1]).map (fun s => s.tempo.map
        (fun r => (r.tempo, r.ticks_per_sec, r.mtime, r.ticks)))
      = some [(500000, Flt.dy 960 0, f0, 0),
          (1, Flt.dy 480000000 0, Flt.dy 10 0, -2147483648)] := by
  have hb : lateEngine.tempo.getLast? = some tempoRec0 := by decide!
  refine ⟨hb, by decide, ?_⟩
  rw [(meta_event_appends_record walker480 lateEngine tempoRec0 0 0 1 hb
    (by decide) (by decide) (by decide)).1]
  decide!

/-! ## Fades -/

/-- C9: directly after `SetVolume(50)` has cancelled a fade (`fade_steps == 0`, while
`delta_step` is still the 0.1 of the fade) and with one second of virtual time since
`last_fade_mtime`, `Update(100)` on the non-paused engine performs a fade step all the same:
the volume goes from 0.5 to 0.6, `fade_steps` to -1, and the 16 channels are sent volume 76. -/
theorem Update_steps_cancelled_fade :
    cancelledFade.map (fun s => (s.paused, s.fade_steps, s.volume))
      = some (false, 0, Flt.dy 1 (-1)) ∧
    cancelledFade.map (fun s => (s.mtime, s.last_fade_mtime, s.delta_step))
      = some (Flt.dy 1 0, f0, Flt.dy 13421773 (-27)) ∧
    cancelledFade.map journal = some [] ∧
    (cancelledFade.bind (fun s => Update walker480 recorder s 100)).map
        (fun s => (s.fade_steps, s.volume)) = some (-1, Flt.dy 5033165 (-23)) ∧
    (cancelledFade.bind (fun s => Update walker480 recorder s 100)).map journal
      = some ((List.range 16).map (fun c => BackendCall.message (midimsg_volume c 76))) := by
  refine ⟨?_, ?_, ?_, ?_, ?_⟩ <;> decide!

/-- C10 refuted: after `SetFade(0, 100, 1000)` on the freshly loaded engine (not paused, pitch
100, virtual time 0) the first `Update(100)` leaves the volume at 0, and after ten of them
`fade_steps` is 3 and the volume is 0.7, not 0 and 1.0. -/
theorem ten_ticks_do_not_finish_fade :
    (fadeEngine.paused, fadeEngine.pitch, fadeEngine.fade_steps, fadeEngine.volume)
      = (false, 100, 10, f0) ∧
    (ticked 1 fadeEngine).map (fun s => (s.fade_steps, s.volume)) = some (10, f0) ∧
    (ticked 10 fadeEngine).map (fun s => (s.fade_steps, s.volume))
      = some (3, Flt.dy 2936013 (-22)) := by
  refine ⟨?_, ?_, ?_⟩ <;> decide!

/-- C10 (corrected): after `SetFade(0, 100, 1000)` on the freshly loaded engine (not paused,
pitch 100, virtual time 0, no event delivered), `fade_steps` and the volume after 0, 1, ...,
13 calls of `Update(100)` are as listed: ticks 1, 2 and 5 find no more than `0.1f` of virtual
time elapsed since the last adjustment and change nothing, every other tick adds one step of
`0.1f`; the volume never decreases, ten ticks reach `fade_steps == 3` and volume 0.7, and
`fade_steps == 0` with volume exactly 1.0 is reached by the thirteenth tick. -/
theorem fade_trace_of_thirteen_ticks :
    (List.range 14).map (fun n => (ticked n fadeEngine).map (fun s => (s.fade_steps, s.volume)))
      = [some (10, f0), some (10, f0), some (10, f0), some (9, Flt.dy 13421773 (-27)),
         some (8, Flt.dy 13421773 (-26)), some (8, Flt.dy 13421773 (-26)),
         some (7, Flt.dy 5033165 (-24)), some (6, Flt.dy 13421773 (-25)),
         some (5, Flt.dy 1 (-1)), some (4, Flt.dy 5033165 (-23)),
         some (3, Flt.dy 2936013 (-22)), some (2, Flt.dy 6710887 (-23)),
         some (1, Flt.dy 1887437 (-21)), some (0, Flt.dy 1 0)] ∧
    (List.range 13).all (fun n =>
      match ticked n fadeEngine, ticked (n + 1) fadeEngine with
      | some a, some b => Flt.le a.volume b.volume
      | _, _ => false) = true := by
  constructor <;> decide!

/-! ## Seeking to time zero, silence at the end, pause and resume -/

/-- C16: on a non-empty tempo list, when `rewind_to_loop` returns virtual time 0, `Seek(0, beg)`
returns true and leaves exactly one tempo record, with the default tempo, created at time 0. -/
theorem Seek_to_zero_resets_tempo {σ β : Type} (W : Sequencer σ) (s : AudioDecoderMidi σ β)
    (hne : s.tempo ≠ []) (h0 : (W.rewind_to_loop s.seq).2 = f0) :
    ∃ s1, Seek W s 0 seekdir.beg = some (s1, true) ∧
      s1.mtime = f0 ∧
      s1.tempo = [MidiTempoData.new (W.get_division (W.rewind_to_loop s.seq).1) f0
        s.midi_default_tempo none] ∧
      s1.tempo.length = 1 ∧
      ∀ r ∈ s1.tempo, r.tempo = s.midi_default_tempo ∧ r.mtime = f0 ∧ r.ticks = 0 := by
  have he : s.tempo.isEmpty = false := by
    cases h : s.tempo with
    | nil => exact absurd h hne
    | cons a l => rfl
  have hlt : Flt.lt f0 f0 = false := by decide
  refine ⟨{ s with
      seq := (W.rewind_to_loop s.seq).1, mtime := f0,
      loops_to_end := Flt.le (W.get_total_time (W.rewind_to_loop s.seq).1) f0,
      tempo := [MidiTempoData.new (W.get_division (W.rewind_to_loop s.seq).1) f0
        s.midi_default_tempo none] }, ?_, rfl, rfl, rfl, ?_⟩
  · unfold Seek
    simp only [he, h0, hlt, if_true, and_self, List.nil_append]
    rfl
  · intro r hr
    simp only [List.mem_singleton] at hr
    subst hr
    exact ⟨rfl, rfl, rfl⟩

/-- Witness of C16: the engine with three tempo records on a file whose loop point is at 0. -/
theorem Seek_to_zero_resets_tempo_witness :
    threeTempoEngine.tempo ≠ [] ∧ (walker480.rewind_to_loop threeTempoEngine.seq).2 = f0 ∧
    ∃ s1, Seek walker480 threeTempoEngine 0 seekdir.beg = some (s1, true) ∧
      s1.tempo.length = 1 := by
  have h1 : threeTempoEngine.tempo ≠ [] := by decide!
  have h2 : (walker480.rewind_to_loop threeTempoEngine.seq).2 = f0 := by decide!
  obtain ⟨s1, e1, -, -, e2, -⟩ := Seek_to_zero_resets_tempo walker480 threeTempoEngine h1 h2
  exact ⟨h1, h2, s1, e1, e2⟩

/-- C14: while `loops_to_end` is set, `FillBuffer(buffer, length)` with `length ≥ 0` returns
`length`, zeroes the first `length` bytes of the buffer and nothing behind them, and returns the
engine (walker state, backend state, virtual time, tempo list and all) as it was. -/
theorem FillBuffer_held_at_end {σ β : Type} (W : Sequencer σ) (B : MidiDecoder β)
    (s : AudioDecoderMidi σ β) (buffer : List Nat) (length : Int)
    (hl : s.loops_to_end = true) (h0 : 0 ≤ length) :
    FillBuffer W B s buffer length = some (s, memset_zero buffer length, length) ∧
    ((length.toNat : Nat) : Int) = length ∧
    (memset_zero buffer length).take length.toNat = List.replicate length.toNat 0 ∧
    (memset_zero buffer length).drop length.toNat = buffer.drop length.toNat := by
  refine ⟨?_, Int.toNat_of_nonneg h0, ?_, ?_⟩
  · unfold FillBuffer
    simp only [hl, if_true]
  · unfold memset_zero
    rw [List.take_append_eq_append_take]
    simp
  · unfold memset_zero
    rw [List.drop_append_eq_append_drop]
    simp

/-- Witness of C14: eight bytes asked of the engine held at the end of its file. -/
theorem FillBuffer_held_at_end_witness :
    heldEngine.loops_to_end = true ∧ (0 : Int) ≤ 8 ∧
    (FillBuffer walkerLoopAtEnd recorder heldEngine [1, 2, 3, 4, 5, 6, 7, 8, 9, 10] 8).map
      (fun r => (r.2.1, r.2.2, journal r.1)) = some ([0, 0, 0, 0, 0, 0, 0, 0, 9, 10], 8, []) := by
  have h1 : heldEngine.loops_to_end = true := by decide!
  refine ⟨h1, by decide, ?_⟩
  rw [(FillBuffer_held_at_end walkerLoopAtEnd recorder heldEngine [1, 2, 3, 4, 5, 6, 7, 8, 9, 10] 8
    h1 (by decide)).1]
  decide!

theorem foldl_recording {β : Type} (B : MidiDecoder β) (f : Fin 16 → Nat) (l : List (Fin 16))
    (d : β × List BackendCall) :
    l.foldl (fun d i => B.recording.SendMidiMessage d (f i)) d
      = (l.foldl (fun d i => B.SendMidiMessage d (f i)) d.1,
          d.2 ++ l.map (fun i => BackendCall.message (f i))) := by
  induction l generalizing d with
  | nil => simp
  | cons a l ih =>
    rw [List.foldl_cons, ih]
    simp [MidiDecoder.recording]

/-- The journal of the 16 volume messages of a broadcast. -/
theorem send_volumes_recording {β : Type} (B : MidiDecoder β) (vol : Fin 16 → Nat)
    (d : β × List BackendCall) :
    send_volumes B.recording vol d
      = (send_volumes B vol d.1,
          d.2 ++ (List.finRange 16).map (fun i => BackendCall.message (midimsg_volume i.val (vol i)))) := by
  unfold send_volumes
  exact foldl_recording B (fun i => midimsg_volume i.val (vol i)) (List.finRange 16) d

/-- The volume control-change on channel `c` with data byte `v`, as a number. -/
theorem midimsg_volume_eq (c v : Nat) (hc : c < 16) (hv : v < 256) :
    midimsg_volume c v = 0x07B0 + c + 0x10000 * v := by
  simp only [midimsg_volume, midimsg_make_eq, midi_event_control_change, midi_control_volume]
  omega

theorem finRange_map_val : (List.finRange 16).map (fun i => i.val) = List.range 16 := by
  decide!

/-- The 16 zero-volume messages of `Pause`, as words sent to any backend. -/
theorem send_volumes_zero {β : Type} (B : MidiDecoder β) (d : β) :
    send_volumes B (fun _ => 0) d
      = (List.range 16).foldl (fun d c => B.SendMidiMessage d (0x07B0 + c)) d := by
  unfold send_volumes
  rw [← finRange_map_val, List.foldl_map]
  congr 1
  funext d i
  rw [midimsg_volume_eq i.val 0 i.isLt (by decide), Nat.mul_zero, Nat.add_zero]

/-- The 16 volume messages of `Resume`, as words sent to any backend. -/
theorem send_volumes_scaled {β : Type} (B : MidiDecoder β) (cv : Fin 16 → Nat) (volume : Flt)
    (d : β) :
    send_volumes B (fun i => scaled_volume (cv i) volume) d
      = (List.finRange 16).foldl (fun d c => B.SendMidiMessage d
          (0x07B0 + c.val + 0x10000 * Flt.toUInt8 (fmul (fofInt (cv c)) volume))) d := by
  have h : (fun (d : β) (i : Fin 16) =>
        B.SendMidiMessage d (midimsg_volume i.val (scaled_volume (cv i) volume)))
      = (fun d c => B.SendMidiMessage d
          (0x07B0 + c.val + 0x10000 * Flt.toUInt8 (fmul (fofInt (cv c)) volume))) := by
    funext d i
    have hlt : scaled_volume (cv i) volume < 256 := toUInt8_lt _
    rw [midimsg_volume_eq i.val _ i.isLt hlt]
    simp only [scaled_volume]
  unfold send_volumes
  rw [h]

/-- C17: `Pause()` sets `paused` and sends the backend 16 messages, the words `0x0007B0 + c`
for the channels `c` from 0 to 15 in order: the volume control-change (event type `0xB`,
controller 7) on channel `c` with value 0.  A following `Resume()` clears `paused` and sends,
for the channels 0 to 15 in order, the words `0x0007B0 + c + 0x10000 * v` with
`v = static_cast<uint8_t>(channel_volumes[c] * volume)`: the volume control-change on channel
`c` with value `v`.  Neither changes any other field: the volume, the fade fields and the
shadow table stay.  On the engine at volume 0.5 whose shadow table holds 100 for channel 3 and
127 elsewhere, the 32 messages are the 16 zero-volume words, then the words with value 63, and
with value 50 for channel 3. -/
theorem Pause_Resume_messages {σ β : Type} (B : MidiDecoder β) (s : AudioDecoderMidi σ β)
    (sr : AudioDecoderMidi σ (β × List BackendCall)) :
    Pause B s = { s with
      paused := true,
      mididec := (List.range 16).foldl (fun d c => B.SendMidiMessage d (0x07B0 + c)) s.mididec } ∧
    Resume B (Pause B s) = { s with
      paused := false,
      mididec := (List.finRange 16).foldl (fun d c => B.SendMidiMessage d
          (0x07B0 + c.val + 0x10000 * Flt.toUInt8 (fmul (fofInt (s.channel_volumes c)) s.volume)))
        ((List.range 16).foldl (fun d c => B.SendMidiMessage d (0x07B0 + c)) s.mididec) } ∧
    journal (Pause B.recording sr)
      = journal sr ++ (List.range 16).map (fun c => BackendCall.message (0x07B0 + c)) ∧
    journal (Resume B.recording (Pause B.recording sr))
      = journal (Pause B.recording sr) ++ (List.finRange 16).map (fun c =>
          BackendCall.message (0x07B0 + c.val
            + 0x10000 * Flt.toUInt8 (fmul (fofInt (sr.channel_volumes c)) sr.volume))) ∧
    (∀ c v : Nat, c < 16 → v < 256 →
      midimsg_volume c v = 0x07B0 + c + 0x10000 * v ∧
      midimsg_get_event_type (0x07B0 + c + 0x10000 * v) = 0xB ∧
      midimsg_get_channel (0x07B0 + c + 0x10000 * v) = c ∧
      midimsg_get_value1 (0x07B0 + c + 0x10000 * v) = 7 ∧
      midimsg_get_value2 (0x07B0 + c + 0x10000 * v) = v ∧
      (0x07B0 + c + 0x10000 * v) % 256 = 0xB0 + c ∧
      (0x07B0 + c + 0x10000 * v) / 256 % 256 = 7 ∧
      (0x07B0 + c + 0x10000 * v) / 65536 = v) ∧
    (∀ c : Fin 16, Flt.toUInt8 (fmul (fofInt (s.channel_volumes c)) s.volume) < 256) ∧
    ((Pause B s).volume = s.volume ∧ (Pause B s).channel_volumes = s.channel_volumes ∧
      (Pause B s).fade_end = s.fade_end ∧ (Pause B s).fade_steps = s.fade_steps ∧
      (Pause B s).delta_step = s.delta_step ∧
      (Pause B s).last_fade_mtime = s.last_fade_mtime) ∧
    ((Resume B (Pause B s)).volume = s.volume ∧
      (Resume B (Pause B s)).channel_volumes = s.channel_volumes) ∧
    (mixedVolumeEngine.volume = Flt.dy 1 (-1) ∧
      (List.finRange 16).map mixedVolumeEngine.channel_volumes
        = [127, 127, 127, 100, 127, 127, 127, 127, 127, 127, 127, 127, 127, 127, 127, 127] ∧
      journal (Resume recorder (Pause recorder mixedVolumeEngine))
        = [0x0007B0, 0x0007B1, 0x0007B2, 0x0007B3, 0x0007B4, 0x0007B5, 0x0007B6, 0x0007B7,
            0x0007B8, 0x0007B9, 0x0007BA, 0x0007BB, 0x0007BC, 0x0007BD, 0x0007BE, 0x0007BF,
            0x3F07B0, 0x3F07B1, 0x3F07B2, 0x3207B3, 0x3F07B4, 0x3F07B5, 0x3F07B6, 0x3F07B7,
            0x3F07B8, 0x3F07B9, 0x3F07BA, 0x3F07BB, 0x3F07BC, 0x3F07BD, 0x3F07BE,
            0x3F07BF].map BackendCall.message) := by
  have hP : ∀ {γ : Type} (C : MidiDecoder γ) (u : AudioDecoderMidi σ γ), Pause C u = { u with
      paused := true,
      mididec := (List.range 16).foldl (fun d c => C.SendMidiMessage d (0x07B0 + c))
        u.mididec } := by
    intro γ C u
    simp only [Pause, send_volumes_zero]
  have hR : ∀ {γ : Type} (C : MidiDecoder γ) (u : AudioDecoderMidi σ γ), Resume C u = { u with
      paused := false,
      mididec := (List.finRange 16).foldl (fun d c => C.SendMidiMessage d
          (0x07B0 + c.val + 0x10000 * Flt.toUInt8 (fmul (fofInt (u.channel_volumes c)) u.volume)))
        u.mididec } := by
    intro γ C u
    simp only [Resume, send_volumes_scaled]
  refine ⟨hP B s, ?_, ?_, ?_, ?_, fun c => toUInt8_lt _, ⟨rfl, rfl, rfl, rfl, rfl, rfl⟩,
    ⟨rfl, rfl⟩, ⟨?_, ?_, ?_⟩⟩
  · rw [hR, hP]
  · have h : (List.finRange 16).map (fun i => BackendCall.message (midimsg_volume i.val 0))
        = (List.range 16).map (fun c => BackendCall.message (0x07B0 + c)) := by decide!
    simp only [journal, Pause, send_volumes_recording, h]
  · have h : ∀ c : Fin 16, midimsg_volume c.val (scaled_volume (sr.channel_volumes c) sr.volume)
        = 0x07B0 + c.val
          + 0x10000 * Flt.toUInt8 (fmul (fofInt (sr.channel_volumes c)) sr.volume) := by
      intro c
      have hlt : scaled_volume (sr.channel_volumes c) sr.volume < 256 := toUInt8_lt _
      rw [midimsg_volume_eq c.val _ c.isLt hlt]
      simp only [scaled_volume]
    simp only [journal, Resume, Pause, send_volumes_recording, h]
  · intro c v hc hv
    refine ⟨midimsg_volume_eq c v hc hv, ?_, ?_, ?_, ?_, ?_, ?_, ?_⟩
    · rw [midimsg_get_event_type_eq]
      omega
    · rw [midimsg_get_channel_eq]
      omega
    · rw [midimsg_get_value1_eq]
      omega
    · rw [midimsg_get_value2_eq]
      omega
    · omega
    · omega
    · omega
  · decide!
  · decide!
  · decide!

/-- C18: the broadcast of `midimsg_all_sound_off(0)` made by `reset` sends 16 messages whose
channel nibbles are 0, 1, 3, 3, 7, 7, 7, 7 and eight times 15, because every channel is or-ed
into the word left by the iterations before: the channels 2, 4, 5, 6 and 8 to 14 get none. -/
theorem SendMessageToAllChannels_misses_channels :
    midimsg_all_sound_off 0 = 0x78B0 ∧ midimsg_get_channel (midimsg_all_sound_off 0) = 0 ∧
    (SendMessageToAllChannels recorder (midimsg_all_sound_off 0) ((), [])).2
      = [0x78B0, 0x78B1, 0x78B3, 0x78B3, 0x78B7, 0x78B7, 0x78B7, 0x78B7, 0x78BF, 0x78BF, 0x78BF,
          0x78BF, 0x78BF, 0x78BF, 0x78BF, 0x78BF].map BackendCall.message ∧
    [0x78B0, 0x78B1, 0x78B3, 0x78B3, 0x78B7, 0x78B7, 0x78B7, 0x78B7, 0x78BF, 0x78BF, 0x78BF,
          0x78BF, 0x78BF, 0x78BF, 0x78BF, 0x78BF].map midimsg_get_channel
      = [0, 1, 3, 3, 7, 7, 7, 7, 15, 15, 15, 15, 15, 15, 15, 15] := by
  refine ⟨?_, ?_, ?_, ?_⟩ <;> decide!

/-! ## Degenerate and short fades -/

/-- C11 refuted: on the engine that has made the first step of a fade at virtual time 0.2,
`SetFade(0, 50, 0)` leaves `last_fade_mtime` at 0 and `SetVolume(50)` leaves it at 0.2: the two
resulting states differ. -/
theorem SetFade_resets_last_fade_mtime :
    (ticked 3 fadeEngine).map (fun s => s.last_fade_mtime) = some (Flt.dy 13421773 (-26)) ∧
    (ticked 3 fadeEngine).map (fun s => (SetFade recorder s 0 50 0).last_fade_mtime)
      = some f0 ∧
    (ticked 3 fadeEngine).map (fun s => (SetVolume recorder s 50).last_fade_mtime)
      = some (Flt.dy 13421773 (-26)) := by
  refine ⟨?_, ?_, ?_⟩ <;> decide!

/-- C11 (corrected): with `duration <= 0` or `begin == end`, `SetFade(begin, end, duration)`
gives the state of `SetVolume(end)` with `last_fade_mtime` set to 0, and sends the backend the
same messages: the volume is `end / 100`, the shadow table is untouched and `fade_steps` is 0.
The two states are equal when `last_fade_mtime` was 0 before. -/
theorem SetFade_degenerate {σ β : Type} (B : MidiDecoder β) (s : AudioDecoderMidi σ β)
    (begin_ end_ duration : Int) (h : duration ≤ 0 ∨ begin_ = end_) :
    SetFade B s begin_ end_ duration = { SetVolume B s end_ with last_fade_mtime := f0 } ∧
    (SetFade B s begin_ end_ duration).mididec = (SetVolume B s end_).mididec ∧
    (SetFade B s begin_ end_ duration).volume = fdiv (fofInt end_) (Flt.lit binary32 100 1) ∧
    (SetFade B s begin_ end_ duration).channel_volumes = s.channel_volumes ∧
    (SetFade B s begin_ end_ duration).fade_steps = 0 ∧
    (s.last_fade_mtime = f0 → SetFade B s begin_ end_ duration = SetVolume B s end_) := by
  have hm : SetFade B s begin_ end_ duration
      = { SetVolume B s end_ with last_fade_mtime := f0 } := by
    unfold SetFade
    dsimp only
    by_cases hd : duration ≤ 0
    · rw [if_pos hd]
      simp only [SetVolume]
    · have hb : begin_ = end_ := by
        rcases h with h | h
        · exact absurd h hd
        · exact h
      rw [if_neg hd, if_pos hb]
      simp only [SetVolume]
  refine ⟨hm, ?_, ?_, ?_, ?_, ?_⟩
  · rw [hm]
  · rw [hm]
    simp only [SetVolume]
  · rw [hm]
    simp only [SetVolume]
  · rw [hm]
    simp only [SetVolume]
  · intro h0
    rw [hm]
    simp only [SetVolume, ← h0]

/-- Witness of C11: `SetFade(30, 50, 0)` on the freshly loaded engine. -/
theorem SetFade_degenerate_witness :
    ((0 : Int) ≤ 0 ∨ (30 : Int) = 50) ∧
    journal (SetFade recorder loadedEngine 30 50 0) = journal (SetVolume recorder loadedEngine 50) :=
  ⟨Or.inl (by decide),
    congrArg (fun d => d.2)
      (SetFade_degenerate recorder loadedEngine 30 50 0 (Or.inl (by decide))).2.1⟩

/-- C20 refuted: `SetFade(0, 100, 50)` has `begin != end` and `duration > 0`, yet `fade_steps`
is `50 / 100 == 0` and `delta_step` is the infinity of the division by zero; and for
`SetFade(0, 3, 500)`, with 5 steps, `fade_steps * delta_step` is not `fade_end - volume`. -/
theorem SetFade_short_duration_divides_by_zero :
    ((SetFade recorder loadedEngine 0 100 50).fade_steps,
      (SetFade recorder loadedEngine 0 100 50).delta_step) = (0, Flt.inf false) ∧
    ((SetFade recorder loadedEngine 0 3 500).fade_steps,
      (SetFade recorder loadedEngine 0 3 500).delta_step) = (5, Flt.dy 6442451 (-30)) ∧
    fmul (fofInt (SetFade recorder loadedEngine 0 3 500).fade_steps)
      (SetFade recorder loadedEngine 0 3 500).delta_step = Flt.dy 1006633 (-25) ∧
    fsub (SetFade recorder loadedEngine 0 3 500).fade_end
      (SetFade recorder loadedEngine 0 3 500).volume = Flt.dy 16106127 (-29) := by
  refine ⟨?_, ?_, ?_, ?_⟩ <;> decide!

/-! ## Facts on rounding -/

theorem ilog2Aux_spec (k : Nat) : ∀ (n acc : Nat), 0 < n →
    acc ≤ ilog2Aux k n acc ∧ 2 ^ (ilog2Aux k n acc - acc) ≤ n := by
  induction k with
  | zero =>
    intro n acc hn
    simp only [ilog2Aux, Nat.sub_self, Nat.pow_zero, Nat.le_refl, true_and]
    exact hn
  | succ k ih =>
    intro n acc hn
    rw [ilog2Aux]
    by_cases h : 2 ^ 2 ^ k ≤ n
    · rw [if_pos h]
      have hq : 0 < n / 2 ^ 2 ^ k := Nat.div_pos h (Nat.two_pow_pos _)
      obtain ⟨h1, h2⟩ := ih (n / 2 ^ 2 ^ k) (acc + 2 ^ k) hq
      have h3 : acc ≤ ilog2Aux k (n / 2 ^ 2 ^ k) (acc + 2 ^ k) :=
        Nat.le_trans (Nat.le_add_right _ _) h1
      refine ⟨h3, ?_⟩
      have e : ilog2Aux k (n / 2 ^ 2 ^ k) (acc + 2 ^ k) - acc
          = (ilog2Aux k (n / 2 ^ 2 ^ k) (acc + 2 ^ k) - (acc + 2 ^ k)) + 2 ^ k := by
        rw [Nat.sub_add_eq, Nat.sub_add_cancel]
        exact Nat.le_sub_of_add_le (by rw [Nat.add_comm]; exact h1)
      rw [e, Nat.pow_add]
      calc 2 ^ (ilog2Aux k (n / 2 ^ 2 ^ k) (acc + 2 ^ k) - (acc + 2 ^ k)) * 2 ^ 2 ^ k
          ≤ (n / 2 ^ 2 ^ k) * 2 ^ 2 ^ k := Nat.mul_le_mul_right _ h2
        _ ≤ n := Nat.div_mul_le_self n _
    · rw [if_neg h]
      exact ih n acc hn

/-- The power of two of `ilog2 n` is at most `n`. -/
theorem pow_ilog2_le (n : Nat) (hn : 0 < n) : 2 ^ ilog2 n ≤ n := by
  have h := (ilog2Aux_spec 14 n 0 hn).2
  simpa [ilog2] using h

/-- The result of rounding a non-zero number. -/
theorem round_of_ne_zero (f : Fmt) (neg : Bool) (N D : Nat) (hN : N ≠ 0) :
    Flt.round f neg N D =
      if 2 ^ f.emax ≤
          (if D * 2 ^ (max (ilog2 (N / D) + 1 - f.prec) f.emin)
                < 2 * (N % (D * 2 ^ (max (ilog2 (N / D) + 1 - f.prec) f.emin))) ∨
              (2 * (N % (D * 2 ^ (max (ilog2 (N / D) + 1 - f.prec) f.emin)))
                  = D * 2 ^ (max (ilog2 (N / D) + 1 - f.prec) f.emin) ∧
                N / (D * 2 ^ (max (ilog2 (N / D) + 1 - f.prec) f.emin)) % 2 = 1)
            then N / (D * 2 ^ (max (ilog2 (N / D) + 1 - f.prec) f.emin)) + 1
            else N / (D * 2 ^ (max (ilog2 (N / D) + 1 - f.prec) f.emin)))
          * 2 ^ (max (ilog2 (N / D) + 1 - f.prec) f.emin)
      then Flt.inf neg
      else Flt.fin neg
        ((if D * 2 ^ (max (ilog2 (N / D) + 1 - f.prec) f.emin)
                < 2 * (N % (D * 2 ^ (max (ilog2 (N / D) + 1 - f.prec) f.emin))) ∨
              (2 * (N % (D * 2 ^ (max (ilog2 (N / D) + 1 - f.prec) f.emin)))
                  = D * 2 ^ (max (ilog2 (N / D) + 1 - f.prec) f.emin) ∧
                N / (D * 2 ^ (max (ilog2 (N / D) + 1 - f.prec) f.emin)) % 2 = 1)
            then N / (D * 2 ^ (max (ilog2 (N / D) + 1 - f.prec) f.emin)) + 1
            else N / (D * 2 ^ (max (ilog2 (N / D) + 1 - f.prec) f.emin)))
          * 2 ^ (max (ilog2 (N / D) + 1 - f.prec) f.emin)) := by
  unfold Flt.round
  rw [if_neg hN]

/-- The shape of a rounded non-zero number: an infinity, or the quotient by the unit in the last
place, or that quotient plus one, times that unit; the quotient itself when it is exact. -/
theorem round_cases (f : Fmt) (neg : Bool) (N D : Nat) (hN : N ≠ 0) (hD : 0 < D) :
    ∃ q2 : Nat,
      N / (D * 2 ^ (max (ilog2 (N / D) + 1 - f.prec) f.emin)) ≤ q2 ∧
      q2 ≤ N / (D * 2 ^ (max (ilog2 (N / D) + 1 - f.prec) f.emin)) + 1 ∧
      (N % (D * 2 ^ (max (ilog2 (N / D) + 1 - f.prec) f.emin)) = 0 →
        q2 = N / (D * 2 ^ (max (ilog2 (N / D) + 1 - f.prec) f.emin))) ∧
      ((2 ^ f.emax ≤ q2 * 2 ^ (max (ilog2 (N / D) + 1 - f.prec) f.emin) ∧
          Flt.round f neg N D = Flt.inf neg) ∨
        (q2 * 2 ^ (max (ilog2 (N / D) + 1 - f.prec) f.emin) < 2 ^ f.emax ∧
          Flt.round f neg N D
            = Flt.fin neg (q2 * 2 ^ (max (ilog2 (N / D) + 1 - f.prec) f.emin)))) := by
  have hD2 : 0 < D * 2 ^ (max (ilog2 (N / D) + 1 - f.prec) f.emin) :=
    Nat.mul_pos hD (Nat.two_pow_pos _)
  rw [round_of_ne_zero f neg N D hN]
  by_cases c : D * 2 ^ (max (ilog2 (N / D) + 1 - f.prec) f.emin)
        < 2 * (N % (D * 2 ^ (max (ilog2 (N / D) + 1 - f.prec) f.emin))) ∨
      (2 * (N % (D * 2 ^ (max (ilog2 (N / D) + 1 - f.prec) f.emin)))
          = D * 2 ^ (max (ilog2 (N / D) + 1 - f.prec) f.emin) ∧
        N / (D * 2 ^ (max (ilog2 (N / D) + 1 - f.prec) f.emin)) % 2 = 1)
  · refine ⟨N / (D * 2 ^ (max (ilog2 (N / D) + 1 - f.prec) f.emin)) + 1,
      Nat.le_succ _, Nat.le_refl _, ?_, ?_⟩
    · intro hr
      rw [hr] at c
      omega
    · rw [if_pos c]
      by_cases o : 2 ^ f.emax ≤ (N / (D * 2 ^ (max (ilog2 (N / D) + 1 - f.prec) f.emin)) + 1)
          * 2 ^ (max (ilog2 (N / D) + 1 - f.prec) f.emin)
      · left
        rw [if_pos o]
        exact ⟨o, rfl⟩
      · right
        rw [if_neg o]
        exact ⟨Nat.lt_of_not_le o, rfl⟩
  · refine ⟨N / (D * 2 ^ (max (ilog2 (N / D) + 1 - f.prec) f.emin)),
      Nat.le_refl _, Nat.le_succ _, fun _ => rfl, ?_⟩
    rw [if_neg c]
    by_cases o : 2 ^ f.emax ≤ N / (D * 2 ^ (max (ilog2 (N / D) + 1 - f.prec) f.emin))
        * 2 ^ (max (ilog2 (N / D) + 1 - f.prec) f.emin)
    · left
      rw [if_pos o]
      exact ⟨o, rfl⟩
    · right
      rw [if_neg o]
      exact ⟨Nat.lt_of_not_le o, rfl⟩

/-- Rounding a number of at least the least positive number of the format does not give a
zero. -/
theorem round_ne_zero (f : Fmt) (hp : 1 ≤ f.prec) (neg b : Bool) (N D : Nat) (hD : 0 < D)
    (h : D * 2 ^ f.emin ≤ N) : Flt.round f neg N D ≠ Flt.fin b 0 := by
  have hN : N ≠ 0 := by
    intro h0
    rw [h0] at h
    have := Nat.mul_pos hD (Nat.two_pow_pos f.emin)
    omega
  have hND : 0 < N / D := by
    apply Nat.div_pos _ hD
    calc D = D * 1 := (Nat.mul_one D).symm
      _ ≤ D * 2 ^ f.emin := Nat.mul_le_mul_left D (Nat.two_pow_pos _)
      _ ≤ N := h
  have hs : D * 2 ^ (max (ilog2 (N / D) + 1 - f.prec) f.emin) ≤ N := by
    rcases Nat.le_total (ilog2 (N / D) + 1 - f.prec) f.emin with hm | hm
    · rw [Nat.max_eq_right hm]
      exact h
    · rw [Nat.max_eq_left hm]
      calc D * 2 ^ (ilog2 (N / D) + 1 - f.prec)
          ≤ D * 2 ^ ilog2 (N / D) :=
            Nat.mul_le_mul_left D (Nat.pow_le_pow_right (by decide) (by omega))
        _ ≤ D * (N / D) := Nat.mul_le_mul_left D (pow_ilog2_le _ hND)
        _ ≤ N := Nat.mul_div_le N D
  have hpos : 0 < (2 : Nat) ^ (max (ilog2 (N / D) + 1 - f.prec) f.emin) := Nat.two_pow_pos _
  have hq : 0 < N / (D * 2 ^ (max (ilog2 (N / D) + 1 - f.prec) f.emin)) :=
    Nat.div_pos hs (Nat.mul_pos hD hpos)
  obtain ⟨q2, h1, -, -, hr⟩ := round_cases f neg N D hN hD
  rcases hr with ⟨-, hr⟩ | ⟨-, hr⟩
  · rw [hr]
    intro hc
    cases hc
  · rw [hr]
    intro hc
    injection hc with _ hz
    have := Nat.mul_pos (Nat.lt_of_lt_of_le hq h1) hpos
    omega

/-- The `float` of a non-zero integer is not a zero. -/
theorem fofInt_ne_zero (k : Int) (hk : k ≠ 0) (b : Bool) : fofInt k ≠ Flt.fin b 0 := by
  unfold fofInt Flt.ofInt
  have h1 : 1 ≤ k.natAbs := by omega
  have h2 : (2 : Nat) ^ binary32.emin ≤ Flt.one := by
    unfold Flt.one
    exact Nat.pow_le_pow_right (by decide) (by decide)
  have h3 : 1 * 2 ^ binary32.emin ≤ k.natAbs * Flt.one := Nat.mul_le_mul h1 h2
  exact round_ne_zero binary32 (by decide) _ _ _ _ (by decide) h3

/-- C20 (corrected): for `begin != end` and `duration >= 100`, `SetFade` sets `fade_steps` to
`duration / 100`, which is at least 1: the fade is active afterwards, the divisor of
`delta_step = (fade_end - volume) / fade_steps` is not a zero, and `volume` and `fade_end` are
`begin / 100` and `end / 100`. -/
theorem SetFade_steps {σ β : Type} (B : MidiDecoder β) (s : AudioDecoderMidi σ β)
    (begin_ end_ duration : Int) (hb : begin_ ≠ end_) (hd : 100 ≤ duration) :
    (SetFade B s begin_ end_ duration).fade_steps = duration / 100 ∧
    1 ≤ (SetFade B s begin_ end_ duration).fade_steps ∧
    (∀ b, fofInt (SetFade B s begin_ end_ duration).fade_steps ≠ Flt.fin b 0) ∧
    (SetFade B s begin_ end_ duration).delta_step
      = fdiv (fsub (SetFade B s begin_ end_ duration).fade_end
          (SetFade B s begin_ end_ duration).volume)
        (fofInt (SetFade B s begin_ end_ duration).fade_steps) ∧
    (SetFade B s begin_ end_ duration).volume = fdiv (fofInt begin_) (Flt.lit binary32 100 1) ∧
    (SetFade B s begin_ end_ duration).fade_end = fdiv (fofInt end_) (Flt.lit binary32 100 1) ∧
    (SetFade B s begin_ end_ duration).mididec = s.mididec := by
  have hnd : ¬ duration ≤ 0 := by omega
  have ht : Int.tdiv duration 100 = duration / 100 :=
    Int.tdiv_eq_ediv (by omega) (by decide)
  have hm : SetFade B s begin_ end_ duration = { s with
      last_fade_mtime := f0,
      volume := fdiv (fofInt begin_) (Flt.lit binary32 100 1),
      fade_end := fdiv (fofInt end_) (Flt.lit binary32 100 1),
      fade_steps := duration / 100,
      delta_step := fdiv (fsub (fdiv (fofInt end_) (Flt.lit binary32 100 1))
        (fdiv (fofInt begin_) (Flt.lit binary32 100 1))) (fofInt (duration / 100)) } := by
    unfold SetFade
    dsimp only
    rw [if_neg hnd, if_neg hb, ht]
  refine ⟨by simp only [hm], ?_, ?_, by simp only [hm], by simp only [hm], by simp only [hm],
    by simp only [hm]⟩
  · simp only [hm]
    omega
  · intro b
    simp only [hm]
    exact fofInt_ne_zero _ (by omega) b

/-- Witness of C20: `SetFade(0, 100, 1000)` on the freshly loaded engine has 10 steps. -/
theorem SetFade_steps_witness :
    (0 : Int) ≠ 100 ∧ (100 : Int) ≤ 1000 ∧
    (SetFade recorder loadedEngine 0 100 1000).fade_steps = 1000 / 100 :=
  ⟨by decide, by decide,
    (SetFade_steps recorder loadedEngine 0 100 1000 (by decide) (by decide)).1⟩

/-- The function `Update` as its fade block followed by its tail. -/
theorem Update_eq {σ β : Type} (W : Sequencer σ) (B : MidiDecoder β) (s : AudioDecoderMidi σ β)
    (delta : Int) :
    Update W B s delta =
      if s.paused then some s
      else Update_tail W B
        (if 0 ≤ s.fade_steps ∧
            Flt.lt (Flt.lit binary32 1 10) (fsub s.mtime s.last_fade_mtime) then
          Update_fade_step B s else s) delta := by
  unfold Update Update_tail Update_fade_step
  rfl

section CallLemmas

variable {σ β : Type} (W : Sequencer σ) (B : MidiDecoder β)

/-- The two branches of `midi_message`. -/
theorem midi_message_eq (s : AudioDecoderMidi σ β) (track : Int) (message : Nat) :
    midi_message B s track message =
      if midimsg_get_event_type message = midi_event_control_change ∧
          midimsg_get_value1 message = midi_control_volume then
        { s with
          channel_volumes := Function.update s.channel_volumes
            (Fin.ofNat (midimsg_get_channel message)) (midimsg_get_value2 message),
          mididec := B.SendMidiMessage s.mididec (midimsg_volume (midimsg_get_channel message)
            (Flt.toUInt8 (fmul (fofInt (midimsg_get_value2 message)) s.volume))) }
      else { s with mididec := B.SendMidiMessage s.mididec message } := by
  unfold midi_message
  rfl

theorem midi_message_loops_to_end (s : AudioDecoderMidi σ β) (track : Int) (message : Nat) :
    (midi_message B s track message).loops_to_end = s.loops_to_end := by
  rw [midi_message_eq]
  split <;> rfl

theorem midi_message_shadow (K : Nat) (s : AudioDecoderMidi σ β) (track : Int) (message : Nat)
    (hm : volume_at_most K message) (h : ∀ c, s.channel_volumes c ≤ K) :
    ∀ c, (midi_message B s track message).channel_volumes c ≤ K := by
  intro c
  rw [midi_message_eq]
  split
  · rename_i hc
    show Function.update s.channel_volumes _ _ c ≤ K
    rw [Function.update_apply]
    split
    · exact hm hc.1 hc.2
    · exact h c
  · exact h c

theorem meta_event_frame (s s1 : AudioDecoderMidi σ β) (event : Int) (data : List Nat)
    (h : meta_event W s event data = some s1) :
    s1.channel_volumes = s.channel_volumes ∧ s1.loops_to_end = s.loops_to_end ∧
    s1.mididec = s.mididec := by
  unfold meta_event at h
  cases hb : s.tempo.getLast? with
  | none => simp [hb] at h
  | some back =>
    simp only [hb] at h
    split at h
    · injection h with h
      subst h
      exact ⟨rfl, rfl, rfl⟩
    · injection h with h
      subst h
      exact ⟨rfl, rfl, rfl⟩

/-- The callbacks keep the shadow table below `K` when the volume messages do, and they keep
`loops_to_end`. -/
theorem foldlM_dispatch_frame (K : Nat) (es : List SeqEvent) :
    ∀ (s s1 : AudioDecoderMidi σ β),
      (∀ track message, SeqEvent.midi track message ∈ es → volume_at_most K message) →
      es.foldlM (dispatch W B) s = some s1 →
      ((∀ c, s.channel_volumes c ≤ K) → ∀ c, s1.channel_volumes c ≤ K) := by
  induction es with
  | nil =>
    intro s s1 _ h hk
    simp only [List.foldlM_nil] at h
    injection h with h
    subst h
    exact hk
  | cons e es ih =>
    intro s s1 hm h hk
    rw [List.foldlM_cons] at h
    cases hd : dispatch W B s e with
    | none => simp [hd] at h
    | some s0 =>
      simp only [hd, Option.some_bind, Option.bind_eq_bind] at h
      refine ih s0 s1 (fun track message hmem => hm track message (List.mem_cons_of_mem _ hmem)) h ?_
      cases e with
      | midi track message =>
        simp only [dispatch, Option.some.injEq] at hd
        subst hd
        exact midi_message_shadow B K s track message (hm track message (List.mem_cons_self _ _)) hk
      | sysex track data =>
        simp only [dispatch, Option.some.injEq] at hd
        subst hd
        exact hk
      | metaEv event data =>
        simp only [dispatch] at hd
        rw [(meta_event_frame W s s0 event data hd).1]
        exact hk

theorem foldlM_dispatch_loops_to_end (es : List SeqEvent) :
    ∀ (s s1 : AudioDecoderMidi σ β), es.foldlM (dispatch W B) s = some s1 →
      s1.loops_to_end = s.loops_to_end := by
  induction es with
  | nil =>
    intro s s1 h
    simp only [List.foldlM_nil] at h
    injection h with h
    subst h
    rfl
  | cons e es ih =>
    intro s s1 h
    rw [List.foldlM_cons] at h
    cases hd : dispatch W B s e with
    | none => simp [hd] at h
    | some s0 =>
      simp only [hd, Option.some_bind, Option.bind_eq_bind] at h
      rw [ih s0 s1 h]
      cases e with
      | midi track message =>
        simp only [dispatch, Option.some.injEq] at hd
        subst hd
        exact midi_message_loops_to_end B s track message
      | sysex track data =>
        simp only [dispatch, Option.some.injEq] at hd
        subst hd
        rfl
      | metaEv event data =>
        simp only [dispatch] at hd
        exact (meta_event_frame W s s0 event data hd).2.1

theorem seq_play_loops_to_end (s s1 : AudioDecoderMidi σ β) (h : seq_play W B s = some s1) :
    s1.loops_to_end = s.loops_to_end := by
  unfold seq_play at h
  cases hf : (W.play s.seq s.mtime).2.foldlM (dispatch W B) s with
  | none => simp [hf] at h
  | some s0 =>
    simp only [hf, Option.map_some', Option.some.injEq] at h
    subst h
    exact foldlM_dispatch_loops_to_end W B _ s s0 hf

/-- The call `seq->play` keeps the shadow table below `K` when the walker's volume messages
are. -/
theorem seq_play_shadow (K : Nat) (s s1 : AudioDecoderMidi σ β) (hw : walker_volume_at_most W K)
    (h : seq_play W B s = some s1) (hk : ∀ c, s.channel_volumes c ≤ K) :
    ∀ c, s1.channel_volumes c ≤ K := by
  unfold seq_play at h
  cases hf : (W.play s.seq s.mtime).2.foldlM (dispatch W B) s with
  | none => simp [hf] at h
  | some s0 =>
    simp only [hf, Option.map_some', Option.some.injEq] at h
    subst h
    exact foldlM_dispatch_frame W B K _ s s0
      (fun track message hmem => hw _ _ track message hmem) hf hk

theorem reset_tempos_after_loop_frame (s : AudioDecoderMidi σ β) :
    (reset_tempos_after_loop W s).channel_volumes = s.channel_volumes ∧
    (reset_tempos_after_loop W s).loops_to_end = s.loops_to_end := by
  unfold reset_tempos_after_loop
  split <;> exact ⟨rfl, rfl⟩

theorem Update_tail_frame (K : Nat) (s s1 : AudioDecoderMidi σ β) (delta : Int)
    (h : Update_tail W B s delta = some s1) :
    s1.loops_to_end = s.loops_to_end ∧
    (walker_volume_at_most W K → (∀ c, s.channel_volumes c ≤ K) →
      ∀ c, s1.channel_volumes c ≤ K) := by
  unfold Update_tail at h
  cases hp : seq_play W B s with
  | none => simp [hp] at h
  | some s0 =>
    simp only [hp, Option.map_some', Option.some.injEq] at h
    have hl := seq_play_loops_to_end W B s s0 hp
    subst h
    split
    · refine ⟨?_, ?_⟩
      · rw [(reset_tempos_after_loop_frame W _).2]
        exact hl
      · intro hw hk
        rw [(reset_tempos_after_loop_frame W _).1]
        exact seq_play_shadow W B K s s0 hw hp hk
    · exact ⟨hl, fun hw hk => seq_play_shadow W B K s s0 hw hp hk⟩

/-- What `Update` leaves alone: `loops_to_end`, and the bound `K` on the shadow table. -/
theorem Update_frame (K : Nat) (s s1 : AudioDecoderMidi σ β) (delta : Int)
    (h : Update W B s delta = some s1) :
    s1.loops_to_end = s.loops_to_end ∧
    (walker_volume_at_most W K → (∀ c, s.channel_volumes c ≤ K) →
      ∀ c, s1.channel_volumes c ≤ K) := by
  rw [Update_eq] at h
  by_cases hp : s.paused = true
  · rw [if_pos hp] at h
    injection h with h
    subst h
    exact ⟨rfl, fun _ hk => hk⟩
  · rw [if_neg hp] at h
    by_cases hg : 0 ≤ s.fade_steps ∧
        Flt.lt (Flt.lit binary32 1 10) (fsub s.mtime s.last_fade_mtime) = true
    · rw [if_pos hg] at h
      exact Update_tail_frame W B K (Update_fade_step B s) s1 delta h
    · rw [if_neg hg] at h
      exact Update_tail_frame W B K s s1 delta h

/-- One iteration of the slice loop, with the state it leaves. -/
theorem FillBuffer_loop_iter (n : Nat) (s s1 : AudioDecoderMidi σ β) (buffer : List Nat)
    (samples_max written : Int) (h1 : seq_play W B s = some s1) (hp : 0 < samples_max) :
    FillBuffer_loop W B (n + 1) s buffer samples_max written =
      if min 512 samples_max < 512 ∨
          (B.FillBuffer s1.mididec buffer written (min 512 samples_max * 4)).2.2
            < min 512 samples_max * 4 then
        some ({ s1 with
            mtime := fadd s1.mtime (fdiv (fofInt (min samples_per_play samples_max))
              (fdiv (fofInt (s.frequency * s.pitch)) (Flt.lit binary32 100 1))),
            mididec := (B.FillBuffer s1.mididec buffer written (min 512 samples_max * 4)).1 },
          (B.FillBuffer s1.mididec buffer written (min 512 samples_max * 4)).2.1,
          written + (B.FillBuffer s1.mididec buffer written (min 512 samples_max * 4)).2.2)
      else
        FillBuffer_loop W B n { s1 with
            mtime := fadd s1.mtime (fdiv (fofInt (min samples_per_play samples_max))
              (fdiv (fofInt (s.frequency * s.pitch)) (Flt.lit binary32 100 1))),
            mididec := (B.FillBuffer s1.mididec buffer written (min 512 samples_max * 4)).1 }
          (B.FillBuffer s1.mididec buffer written (min 512 samples_max * 4)).2.1
          (samples_max - min 512 samples_max)
          (written + (B.FillBuffer s1.mididec buffer written (min 512 samples_max * 4)).2.2) := by
  rw [FillBuffer_loop]
  simp only [hp, if_true, h1, samples_per_play, bytes_per_sample]

theorem FillBuffer_loop_shadow (K : Nat) (hw : walker_volume_at_most W K) (fuel : Nat) :
    ∀ (s : AudioDecoderMidi σ β) (buffer : List Nat) (samples_max written : Int)
      (r : AudioDecoderMidi σ β × List Nat × Int),
      FillBuffer_loop W B fuel s buffer samples_max written = some r →
      (∀ c, s.channel_volumes c ≤ K) → ∀ c, r.1.channel_volumes c ≤ K := by
  induction fuel with
  | zero =>
    intro s buffer samples_max written r h
    simp [FillBuffer_loop] at h
  | succ n ih =>
    intro s buffer samples_max written r h hk
    by_cases hp : 0 < samples_max
    · cases hs : seq_play W B s with
      | none =>
        rw [FillBuffer_loop] at h
        simp [hp, hs] at h
      | some s1 =>
        have hk1 := seq_play_shadow W B K s s1 hw hs hk
        rw [FillBuffer_loop_iter W B n s s1 buffer samples_max written hs hp] at h
        split at h
        · injection h with h
          subst h
          exact hk1
        · exact ih _ _ _ _ r h hk1
    · rw [FillBuffer_loop_stop W B n s buffer samples_max written hp] at h
      injection h with h
      subst h
      exact hk

theorem volume_at_most_255 (message : Nat) : volume_at_most 255 message := by
  intro _ _
  rw [midimsg_get_value2_eq]
  omega

/-- One call keeps the shadow table below `K` when the volume messages it delivers are. -/
theorem EngineCall_run_shadow (K : Nat) (hw : walker_volume_at_most W K) (call : EngineCall)
    (s s1 : AudioDecoderMidi σ β) (h : EngineCall.run W B s call = some s1)
    (hc : ∀ track message, call = EngineCall.midiMessage track message → volume_at_most K message)
    (hk : ∀ c, s.channel_volumes c ≤ K) : ∀ c, s1.channel_volumes c ≤ K := by
  cases call with
  | midiMessage track message =>
    simp only [EngineCall.run, Option.some.injEq] at h
    subst h
    exact midi_message_shadow B K s track message (hc track message rfl) hk
  | setVolume new_volume =>
    simp only [EngineCall.run, Option.some.injEq] at h
    subst h
    exact hk
  | setFade begin_ end_ duration =>
    simp only [EngineCall.run, Option.some.injEq] at h
    subst h
    intro c
    have : (SetFade B s begin_ end_ duration).channel_volumes = s.channel_volumes := by
      unfold SetFade
      dsimp only
      split
      · simp only [SetVolume]
      · split
        · simp only [SetVolume]
        · rfl
    rw [this]
    exact hk c
  | pause =>
    simp only [EngineCall.run, Option.some.injEq] at h
    subst h
    exact hk
  | resume =>
    simp only [EngineCall.run, Option.some.injEq] at h
    subst h
    exact hk
  | update delta =>
    simp only [EngineCall.run] at h
    exact (Update_frame W B K s s1 delta h).2 hw hk
  | fillBuffer buffer length =>
    simp only [EngineCall.run] at h
    cases hf : FillBuffer W B s buffer length with
    | none => simp [hf] at h
    | some r =>
      simp only [hf, Option.map_some', Option.some.injEq] at h
      subst h
      unfold FillBuffer at hf
      split at hf
      · injection hf with hf
        subst hf
        exact hk
      · exact FillBuffer_loop_shadow W B K hw _ s buffer _ 0 r hf hk

theorem run_calls_shadow (K : Nat) (hw : walker_volume_at_most W K) (calls : List EngineCall) :
    ∀ (s s1 : AudioDecoderMidi σ β), run_calls W B calls s = some s1 →
      calls_volume_at_most calls K → (∀ c, s.channel_volumes c ≤ K) →
      ∀ c, s1.channel_volumes c ≤ K := by
  induction calls with
  | nil =>
    intro s s1 h _ hk
    simp only [run_calls, List.foldlM_nil] at h
    injection h with h
    subst h
    exact hk
  | cons call calls ih =>
    intro s s1 h hc hk
    unfold run_calls at h
    rw [List.foldlM_cons] at h
    cases hd : EngineCall.run W B s call with
    | none => simp [hd] at h
    | some s0 =>
      simp only [hd, Option.some_bind, Option.bind_eq_bind] at h
      refine ih s0 s1 h (fun track message hmem => hc track message (List.mem_cons_of_mem _ hmem)) ?_
      refine EngineCall_run_shadow W B K hw call s s0 hd ?_ hk
      intro track message he
      exact hc track message (by rw [he]; exact List.mem_cons_self _ _)

end CallLemmas

/-- C12 refuted: the volume control-change with data value 200 on channel 0 (the word
`0xC807B0`) puts 200 into the shadow table of the freshly loaded engine. -/
theorem shadow_takes_200 :
    (List.finRange 16).map loadedEngine.channel_volumes = List.replicate 16 127 ∧
    (midimsg_get_event_type 0xC807B0, midimsg_get_value1 0xC807B0, midimsg_get_channel 0xC807B0,
      midimsg_get_value2 0xC807B0) = (0xB, 7, 0, 200) ∧
    (run_calls walker480 recorder [EngineCall.midiMessage 0 0xC807B0] loadedEngine).map
      (fun s => s.channel_volumes 0) = some 200 := by
  refine ⟨?_, ?_, ?_⟩ <;> decide!

/-- C12 (corrected): in every state reached from a shadow table within 0 and 127 by
`midi_message`, `SetVolume`, `SetFade`, `Pause`, `Resume`, `Update` and `FillBuffer` calls,
every shadow value is a byte, within 0 and 255; it is within 0 and 127 when every volume
control-change delivered, by a `midi_message` call or by the walker, has a data value of at
most 127. -/
theorem shadow_stays_in_range {σ β : Type} (W : Sequencer σ) (B : MidiDecoder β)
    (calls : List EngineCall) (s s1 : AudioDecoderMidi σ β)
    (h0 : ∀ c, s.channel_volumes c ≤ 127) (hr : run_calls W B calls s = some s1) :
    (∀ c, s1.channel_volumes c ≤ 255) ∧
    (walker_volume_at_most W 127 → calls_volume_at_most calls 127 →
      ∀ c, s1.channel_volumes c ≤ 127) := by
  constructor
  · exact run_calls_shadow W B 255 (fun _ _ _ message _ => volume_at_most_255 message) calls s s1
      hr (fun _ message _ => volume_at_most_255 message) (fun c => Nat.le_trans (h0 c) (by decide))
  · intro hw hc
    exact run_calls_shadow W B 127 hw calls s s1 hr hc h0

/-- Witness of C12: five calls on the freshly loaded engine, with the volume 100 for channel
3 among them. -/
theorem shadow_stays_in_range_witness :
    (∀ c, loadedEngine.channel_volumes c ≤ 127) ∧
    ∃ s1, run_calls walker480 recorder
        [EngineCall.setVolume 50, EngineCall.midiMessage 0 0x6407B3, EngineCall.update 100,
          EngineCall.pause, EngineCall.resume] loadedEngine = some s1 ∧
      ∀ c, s1.channel_volumes c ≤ 127 := by
  have h0 : ∀ c, loadedEngine.channel_volumes c ≤ 127 := by decide!
  have hs : (run_calls walker480 recorder
        [EngineCall.setVolume 50, EngineCall.midiMessage 0 0x6407B3, EngineCall.update 100,
          EngineCall.pause, EngineCall.resume] loadedEngine).isSome = true := by decide!
  obtain ⟨s1, h1⟩ := Option.isSome_iff_exists.mp hs
  have hw : walker_volume_at_most walker480 127 := by
    intro q t track message hmem
    simp [walker480, quietWalker] at hmem
  have hc : calls_volume_at_most
      [EngineCall.setVolume 50, EngineCall.midiMessage 0 0x6407B3, EngineCall.update 100,
        EngineCall.pause, EngineCall.resume] 127 := by
    intro track message hmem
    simp only [List.mem_cons, List.mem_singleton, EngineCall.midiMessage.injEq, reduceCtorEq,
      false_or, or_false, List.mem_nil_iff] at hmem
    intro _ _
    rw [hmem.2]
    decide
  exact ⟨h0, s1, h1, (shadow_stays_in_range walker480 recorder _ loadedEngine s1 h0 h1).2 hw hc⟩

/-! ## Held at the end of the file -/

theorem run_play_calls_held {σ β : Type} (W : Sequencer σ) (B : MidiDecoder β)
    (calls : List EngineCall) :
    ∀ (s s1 : AudioDecoderMidi σ β), s.loops_to_end = true →
      (∀ c ∈ calls, EngineCall.isPlay c = true) → run_calls W B calls s = some s1 →
      s1.loops_to_end = true := by
  induction calls with
  | nil =>
    intro s s1 hl _ h
    simp only [run_calls, List.foldlM_nil] at h
    injection h with h
    subst h
    exact hl
  | cons call calls ih =>
    intro s s1 hl hc h
    unfold run_calls at h
    rw [List.foldlM_cons] at h
    cases hd : EngineCall.run W B s call with
    | none => simp [hd] at h
    | some s0 =>
      simp only [hd, Option.some_bind, Option.bind_eq_bind] at h
      refine ih s0 s1 ?_ (fun c hmem => hc c (List.mem_cons_of_mem _ hmem)) h
      have hplay := hc call (List.mem_cons_self _ _)
      cases call with
      | update delta =>
        simp only [EngineCall.run] at hd
        rw [(Update_frame W B 0 s s0 delta hd).1]
        exact hl
      | fillBuffer buffer length =>
        simp only [EngineCall.run, FillBuffer, hl, if_true, Option.map_some',
          Option.some.injEq] at hd
        subst hd
        exact hl
      | midiMessage track message => simp [EngineCall.isPlay] at hplay
      | setVolume new_volume => simp [EngineCall.isPlay] at hplay
      | setFade begin_ end_ duration => simp [EngineCall.isPlay] at hplay
      | pause => simp [EngineCall.isPlay] at hplay
      | resume => simp [EngineCall.isPlay] at hplay

/-- C15 refuted: `Open` succeeds on a file whose loop point, at 10 seconds, equals its total
time, and leaves `loops_to_end` false; the next `FillBuffer` asks the backend for the 8 bytes
and returns them instead of silence. -/
theorem Open_leaves_loops_to_end_false :
    ((walkerLoopAtEnd.rewind_to_loop ()).2, walkerLoopAtEnd.get_total_time ())
      = (Flt.dy 10 0, Flt.dy 10 0) ∧
    (Open walkerLoopAtEnd recorder (AudioDecoderMidi.create () ((), [])) []).2 = true ∧
    loadedLoopAtEnd.loops_to_end = false ∧
    (FillBuffer walkerLoopAtEnd recorder loadedLoopAtEnd [] 8).map
      (fun r => (r.2.2, journal r.1)) = some (8, [BackendCall.fill 0 8 8]) := by
  refine ⟨?_, ?_, ?_, ?_⟩ <;> decide!

/-- C15 (corrected): `Open` does not touch `loops_to_end`.  It is `Seek(0, beg)` that sets it:
on a loaded engine whose file has its loop point at or behind its total time, `Seek(0, beg)`
returns true with `loops_to_end` set, and in every state reached from there by `FillBuffer` and
`Update` calls `loops_to_end` is still set, `IsFinished()` is false whatever the walker says,
and every `FillBuffer` returns the full length of zero bytes without a change of state. -/
theorem held_at_end_after_Seek {σ β : Type} (W : Sequencer σ) (B : MidiDecoder β)
    (s : AudioDecoderMidi σ β) (hne : s.tempo ≠ [])
    (hloop : Flt.le (W.get_total_time (W.rewind_to_loop s.seq).1) (W.rewind_to_loop s.seq).2
      = true) :
    (∀ (s0 : AudioDecoderMidi σ β) (stream : List Nat),
      (Open W B s0 stream).1.loops_to_end = s0.loops_to_end) ∧
    ∃ s1, Seek W s 0 seekdir.beg = some (s1, true) ∧ s1.loops_to_end = true ∧
      ∀ (calls : List EngineCall) (s2 : AudioDecoderMidi σ β),
        (∀ c ∈ calls, EngineCall.isPlay c = true) → run_calls W B calls s1 = some s2 →
        s2.loops_to_end = true ∧ IsFinished W s2 = false ∧
        ∀ (buffer : List Nat) (length : Int),
          FillBuffer W B s2 buffer length = some (s2, memset_zero buffer length, length) := by
  have he : s.tempo.isEmpty = false := by
    cases h : s.tempo with
    | nil => exact absurd h hne
    | cons a l => rfl
  have hseek : ∃ s1, Seek W s 0 seekdir.beg = some (s1, true) ∧ s1.loops_to_end = true := by
    unfold Seek
    simp only [he, and_self, if_true, Bool.false_eq_true, if_false]
    split
    · exact ⟨_, rfl, hloop⟩
    · exact ⟨_, rfl, hloop⟩
  obtain ⟨s1, h1, h2⟩ := hseek
  refine ⟨?_, s1, h1, h2, ?_⟩
  · intro s0 stream
    unfold Open
    dsimp only
    split <;> rfl
  · intro calls s2 hc hr
    have hl := run_play_calls_held W B calls s1 s2 h2 hc hr
    refine ⟨hl, ?_, ?_⟩
    · unfold IsFinished
      simp only [hl, if_true]
    · intro buffer length
      unfold FillBuffer
      simp only [hl, if_true]

/-- Witness of C15: `Seek(0, beg)` on the engine loaded with the file that loops at its end. -/
theorem held_at_end_after_Seek_witness :
    loadedLoopAtEnd.tempo ≠ [] ∧
    Flt.le (walkerLoopAtEnd.get_total_time (walkerLoopAtEnd.rewind_to_loop loadedLoopAtEnd.seq).1)
      (walkerLoopAtEnd.rewind_to_loop loadedLoopAtEnd.seq).2 = true ∧
    ∃ s1, Seek walkerLoopAtEnd loadedLoopAtEnd 0 seekdir.beg = some (s1, true) ∧
      s1.loops_to_end = true := by
  have h1 : loadedLoopAtEnd.tempo ≠ [] := by decide!
  have h2 : Flt.le
      (walkerLoopAtEnd.get_total_time (walkerLoopAtEnd.rewind_to_loop loadedLoopAtEnd.seq).1)
      (walkerLoopAtEnd.rewind_to_loop loadedLoopAtEnd.seq).2 = true := by decide!
  obtain ⟨s1, e1, e2, -⟩ := (held_at_end_after_Seek walkerLoopAtEnd recorder loadedLoopAtEnd h1 h2).2
  exact ⟨h1, h2, s1, e1, e2⟩

/-! ## The backend requests of `FillBuffer` -/

section JournalLemmas

variable {σ β : Type} (W : Sequencer σ) (B : MidiDecoder β)

theorem dispatch_journal (s s1 : AudioDecoderMidi σ (β × List BackendCall)) (e : SeqEvent)
    (h : dispatch W B.recording s e = some s1) :
    ∃ msgs, journal s1 = journal s ++ msgs ∧ ∀ c ∈ msgs, BackendCall.isFill c = false := by
  cases e with
  | midi track message =>
    simp only [dispatch, Option.some.injEq] at h
    subst h
    rw [midi_message_eq]
    split
    · exact ⟨[BackendCall.message _], rfl, by simp [BackendCall.isFill]⟩
    · exact ⟨[BackendCall.message _], rfl, by simp [BackendCall.isFill]⟩
  | sysex track data =>
    simp only [dispatch, Option.some.injEq] at h
    subst h
    exact ⟨[BackendCall.sysex data], rfl, by simp [BackendCall.isFill]⟩
  | metaEv event data =>
    simp only [dispatch] at h
    refine ⟨[], ?_, by simp⟩
    rw [journal, journal, (meta_event_frame W s s1 event data h).2.2, List.append_nil]

theorem foldlM_dispatch_journal (es : List SeqEvent) :
    ∀ (s s1 : AudioDecoderMidi σ (β × List BackendCall)),
      es.foldlM (dispatch W B.recording) s = some s1 →
      ∃ msgs, journal s1 = journal s ++ msgs ∧ ∀ c ∈ msgs, BackendCall.isFill c = false := by
  induction es with
  | nil =>
    intro s s1 h
    simp only [List.foldlM_nil] at h
    injection h with h
    subst h
    exact ⟨[], by simp, by simp⟩
  | cons e es ih =>
    intro s s1 h
    rw [List.foldlM_cons] at h
    cases hd : dispatch W B.recording s e with
    | none => simp [hd] at h
    | some s0 =>
      simp only [hd, Option.some_bind, Option.bind_eq_bind] at h
      obtain ⟨m1, e1, f1⟩ := dispatch_journal W B s s0 e hd
      obtain ⟨m2, e2, f2⟩ := ih s0 s1 h
      refine ⟨m1 ++ m2, by rw [e2, e1, List.append_assoc], ?_⟩
      intro c hc
      rcases List.mem_append.mp hc with hc | hc
      · exact f1 c hc
      · exact f2 c hc

/-- The call `seq->play` adds to the journal, and no `FillBuffer` request. -/
theorem seq_play_journal (s s1 : AudioDecoderMidi σ (β × List BackendCall))
    (h : seq_play W B.recording s = some s1) :
    ∃ msgs, journal s1 = journal s ++ msgs ∧ ∀ c ∈ msgs, BackendCall.isFill c = false := by
  unfold seq_play at h
  cases hf : (W.play s.seq s.mtime).2.foldlM (dispatch W B.recording) s with
  | none => simp [hf] at h
  | some s0 =>
    simp only [hf, Option.map_some', Option.some.injEq] at h
    subst h
    exact foldlM_dispatch_journal W B _ s s0 hf

theorem filter_isFill_nil (msgs : List BackendCall)
    (h : ∀ c ∈ msgs, BackendCall.isFill c = false) : msgs.filter BackendCall.isFill = [] := by
  rw [List.filter_eq_nil_iff]
  intro c hc
  rw [h c hc]
  decide

/-- The requests of the slice loop: at most one for each 512 samples begun, each for at most
2048 bytes at the offset `written`, inside the bytes of the whole sample frames. -/
theorem FillBuffer_loop_requests
    (hB : ∀ b buf off len, 0 ≤ len →
      0 ≤ (B.FillBuffer b buf off len).2.2 ∧ (B.FillBuffer b buf off len).2.2 ≤ len)
    (fuel : Nat) :
    ∀ (s : AudioDecoderMidi σ (β × List BackendCall)) (buffer : List Nat)
      (samples_max written : Int) (r : AudioDecoderMidi σ (β × List BackendCall) × List Nat × Int),
      FillBuffer_loop W B.recording fuel s buffer samples_max written = some r →
      written ≤ r.2.2 ∧ r.2.2 ≤ written + 4 * max samples_max 0 ∧
      ∃ calls, journal r.1 = journal s ++ calls ∧
        512 * ((calls.filter BackendCall.isFill).length : Int) ≤ max samples_max 0 + 511 ∧
        ∀ off len res, BackendCall.fill off len res ∈ calls →
          written ≤ off ∧ 0 < len ∧ len ≤ 2048 ∧ off + len ≤ written + 4 * max samples_max 0 := by
  induction fuel with
  | zero =>
    intro s buffer samples_max written r h
    simp [FillBuffer_loop] at h
  | succ n ih =>
    intro s buffer samples_max written r h
    by_cases hp : 0 < samples_max
    · cases hs : seq_play W B.recording s with
      | none =>
        rw [FillBuffer_loop] at h
        simp [hp, hs] at h
      | some s1 =>
        obtain ⟨msgs, hj, hnf⟩ := seq_play_journal W B s s1 hs
        have hfil := filter_isFill_nil msgs hnf
        rw [FillBuffer_loop_iter W B.recording n s s1 buffer samples_max written hs hp] at h
        have hres := hB s1.mididec.1 buffer written (min 512 samples_max * 4) (by omega)
        have hrec : (B.recording.FillBuffer s1.mididec buffer written (min 512 samples_max * 4)).2.2
            = (B.FillBuffer s1.mididec.1 buffer written (min 512 samples_max * 4)).2.2 := rfl
        have hjr : (B.recording.FillBuffer s1.mididec buffer written (min 512 samples_max * 4)).1.2
            = journal s1 ++ [BackendCall.fill written (min 512 samples_max * 4)
                (B.FillBuffer s1.mididec.1 buffer written (min 512 samples_max * 4)).2.2] := rfl
        rw [hrec] at h
        generalize (B.FillBuffer s1.mididec.1 buffer written (min 512 samples_max * 4)).2.2
          = res at h hres hjr
        split at h
        · injection h with h
          subst h
          refine ⟨by show written ≤ written + res; omega,
            by show written + res ≤ written + 4 * max samples_max 0; omega,
            msgs ++ [BackendCall.fill written (min 512 samples_max * 4) res], ?_, ?_, ?_⟩
          · show (B.recording.FillBuffer s1.mididec buffer written
                (min 512 samples_max * 4)).1.2 = _
            rw [hjr, hj, List.append_assoc]
          · rw [List.filter_append, hfil]
            simp only [List.nil_append, List.filter, BackendCall.isFill, List.length_singleton]
            omega
          · intro off len res1 hmem
            rcases List.mem_append.mp hmem with hm | hm
            · have := hnf _ hm
              simp [BackendCall.isFill] at this
            · simp only [List.mem_singleton, BackendCall.fill.injEq] at hm
              obtain ⟨e1, e2, -⟩ := hm
              subst e1 e2
              omega
        · rename_i hc
          simp only [not_or, not_lt] at hc
          obtain ⟨h1, h2, calls, hcj, hcount, hfills⟩ := ih _ _ _ _ r h
          refine ⟨by omega, by omega,
            msgs ++ [BackendCall.fill written (min 512 samples_max * 4) res] ++ calls, ?_, ?_, ?_⟩
          · rw [hcj]
            show (B.recording.FillBuffer s1.mididec buffer written
                (min 512 samples_max * 4)).1.2 ++ calls = _
            rw [hjr, hj, List.append_assoc, List.append_assoc, List.append_assoc]
          · rw [List.filter_append, List.filter_append, hfil]
            simp only [List.nil_append, List.filter, BackendCall.isFill, List.length_append,
              List.length_singleton]
            push_cast
            omega
          · intro off len res1 hmem
            rcases List.mem_append.mp hmem with hm | hm
            · rcases List.mem_append.mp hm with hm | hm
              · have := hnf _ hm
                simp [BackendCall.isFill] at this
              · simp only [List.mem_singleton, BackendCall.fill.injEq] at hm
                obtain ⟨e1, e2, -⟩ := hm
                subst e1 e2
                omega
            · have := hfills off len res1 hm
              omega
    · rw [FillBuffer_loop_stop W B.recording n s buffer samples_max written hp] at h
      injection h with h
      subst h
      refine ⟨Int.le_refl _, by show written ≤ written + 4 * max samples_max 0; omega,
        [], by simp, by simp; omega, by simp⟩

end JournalLemmas

/-- C19: with `loops_to_end` false, `0 ≤ length` and a backend whose results satisfy
`0 ≤ res ≤ len`, a loaded engine's `FillBuffer(buffer, length)` returns, and whenever it returns
the total it returns lies within 0 and `length`, it has made at most
`ceil((length / 4) / 512)` backend requests (one for each iteration of the slice loop), and
every request asks for at most 2048 bytes at an offset with `offset + len ≤ length`. -/
theorem FillBuffer_stays_in_buffer {σ β : Type} (W : Sequencer σ) (B : MidiDecoder β)
    (s : AudioDecoderMidi σ (β × List BackendCall)) (buffer : List Nat) (length : Int)
    (hlen : 0 ≤ length) (hl : s.loops_to_end = false)
    (hB : ∀ b buf off len, 0 ≤ len →
      0 ≤ (B.FillBuffer b buf off len).2.2 ∧ (B.FillBuffer b buf off len).2.2 ≤ len) :
    (s.tempo ≠ [] → ∃ r, FillBuffer W B.recording s buffer length = some r) ∧
    ∀ s1 buf1 w, FillBuffer W B.recording s buffer length = some (s1, buf1, w) →
      0 ≤ w ∧ w ≤ length ∧
      ∃ calls, journal s1 = journal s ++ calls ∧
        ((calls.filter BackendCall.isFill).length : Int) ≤ (length / 4 + 511) / 512 ∧
        ∀ off len res, BackendCall.fill off len res ∈ calls →
          0 ≤ off ∧ 0 < len ∧ len ≤ 2048 ∧ off + len ≤ length := by
  constructor
  · intro ht
    rw [FillBuffer_unfold W B.recording s buffer length hlen hl]
    exact FillBuffer_loop_some W B.recording _ s buffer _ 0 ht (FillBuffer_fuel length hlen)
      (by omega)
  · intro s1 buf1 w h
    rw [FillBuffer_unfold W B.recording s buffer length hlen hl] at h
    obtain ⟨h1, h2, calls, hj, hcount, hfills⟩ :=
      FillBuffer_loop_requests W B hB _ s buffer (length / 4) 0 (s1, buf1, w) h
    simp only at h1 h2 hj
    refine ⟨h1, by omega, calls, hj, by omega, ?_⟩
    intro off len res hmem
    have := hfills off len res hmem
    omega

/-- Witness of C19: 5000 bytes asked of the freshly loaded engine. -/
theorem FillBuffer_stays_in_buffer_witness :
    (0 : Int) ≤ 5000 ∧ loadedEngine.loops_to_end = false ∧
    (FillBuffer walker480 recorder loadedEngine [] 5000).map (fun r => (r.2.2, journal r.1))
      = some (5000, [BackendCall.fill 0 2048 2048, BackendCall.fill 2048 2048 2048,
          BackendCall.fill 4096 904 904]) ∧
    ∃ r, FillBuffer walker480 recorder loadedEngine [] 5000 = some r := by
  have h1 : loadedEngine.loops_to_end = false := by decide!
  have hB : ∀ (b : Unit) (buf : List Nat) (off len : Int), 0 ≤ len →
      0 ≤ (fullBackend.FillBuffer b buf off len).2.2 ∧
        (fullBackend.FillBuffer b buf off len).2.2 ≤ len :=
    fun _ _ _ len h => ⟨h, Int.le_refl len⟩
  exact ⟨by decide, h1, by decide!,
    (FillBuffer_stays_in_buffer walker480 fullBackend loadedEngine [] 5000 (by decide) h1 hB).1
      (by decide!)⟩
